import Mathlib

/-!
# Verification of `static/script.js` (fake-news front end)

A shallow embedding of the display script: the JSON payloads it receives, the
JavaScript value operations it applies to them (`String(..)`, `||`, `typeof`,
`Array.isArray`, `Object.keys`, `JSON.stringify`), the DOM fragments it builds
with `el`, the three view builders and the three request handlers.

Modelling conventions.

* A payload is a `JSON` value, as `res.json()` yields it.  `undefined` (an
  absent property) is `none : Option JSON`.
* An object is the list of its own properties in the order `Object.keys`
  enumerates them.
* A number is a finite decimal `± mant · 10 ^ exp`; `numberToString` is the
  ECMAScript algorithm `Number::toString` on it.  Floating-point rounding,
  `toFixed`, string-to-number parsing and `Date` are left to a `Runtime` record.
* A string is a Lean `String`; lengths and slices count characters, where the
  script counts UTF-16 code units: the two differ only in the text of a snippet
  that holds characters outside the basic plane.
* Code that can throw returns `Except JsError _`; `try .. catch` is
  `Except.tryCatch`.
* A DOM node is a `Node`; a container is the list of its child nodes.
-/

namespace Script

/-! ## JavaScript values -/

/-- A thrown JavaScript value: a `TypeError` raised by the script's own
operations, or a rejection coming from `fetch`, `res.text()` or `res.json()`. -/
inductive JsError
  | typeError
  | rejected (reason : String)
  deriving DecidableEq, Repr

/-- A finite JavaScript number, `(-1)^neg · mant · 10^exp`.  The infinities that
decoding an out-of-range literal yields are not represented. -/
structure JsNum where
  neg : Bool
  mant : Nat
  exp : Int
  deriving DecidableEq, Repr

/-- The number of a non-negative integer (an array length, an HTTP status). -/
def JsNum.ofNat (n : Nat) : JsNum := ⟨false, n, 0⟩

/-- A decoded JSON value. -/
inductive JSON
  | null
  | bool (b : Bool)
  | num (n : JsNum)
  | str (s : String)
  | arr (xs : List JSON)
  | obj (kvs : List (String × JSON))

/-- `Number::toString` (radix 10): with `s` the digits without trailing zeros,
`k` their count and `n` the position of the decimal point, plain digits for
`k ≤ n ≤ 21`, a decimal point inside for `0 < n ≤ 21`, leading `0.` for
`-6 < n ≤ 0`, exponent form otherwise.  Both zeros print as `0`. -/
def numberToString (x : JsNum) : String :=
  if x.mant = 0 then "0" else
  let ds := Nat.toDigits 10 x.mant
  let z := (ds.reverse.takeWhile (fun c => c == '0')).length
  let s := ds.take (ds.length - z)
  let k : Int := s.length
  let n : Int := k + (x.exp + z)
  let body : List Char :=
    if k ≤ n ∧ n ≤ 21 then s ++ List.replicate (n - k).toNat '0'
    else if 0 < n ∧ n ≤ 21 then s.take n.toNat ++ ['.'] ++ s.drop n.toNat
    else if -6 < n ∧ n ≤ 0 then ['0', '.'] ++ List.replicate (-n).toNat '0' ++ s
    else
      let e := n - 1
      let es := (if e < 0 then ['-'] else ['+']) ++ Nat.toDigits 10 e.natAbs
      if s.length = 1 then s ++ ['e'] ++ es
      else s.take 1 ++ ['.'] ++ s.drop 1 ++ ['e'] ++ es
  String.mk ((if x.neg then ['-'] else []) ++ body)

/-- JavaScript truthiness (`ToBoolean`) of a JSON value. -/
def truthy : JSON → Bool
  | .null => false
  | .bool b => b
  | .num n => n.mant != 0
  | .str s => s != ""
  | .arr _ => true
  | .obj _ => true

/-- Truthiness of a possibly `undefined` value. -/
def truthy? : Option JSON → Bool
  | none => false
  | some v => truthy v

/-- `Array.isArray(v)`. -/
def isArray : JSON → Bool
  | .arr _ => true
  | _ => false

/-- `typeof v === 'object'`: arrays, objects and `null`. -/
def typeofObject : JSON → Bool
  | .arr _ => true
  | .obj _ => true
  | .null => true
  | _ => false

/-- `typeof v === 'string'`. -/
def typeofString : JSON → Bool
  | .str _ => true
  | _ => false

/-- Own-property lookup in an object's property list. -/
def lookup (k : String) : List (String × JSON) → Option JSON
  | [] => none
  | (k', v) :: rest => if k' = k then some v else lookup k rest

/-- Property read `v.name` for the field names the script reads by name
(`title`, `prediction`, `fake`, ...): none of them is an index, `length` or an
inherited property, so only an object can have one.  Reading a property of
`null` throws. -/
def getProp (v : JSON) (name : String) : Except JsError (Option JSON) :=
  match v with
  | .null => .error .typeError
  | .obj kvs => .ok (lookup name kvs)
  | _ => .ok none

/-- The property `v.length`. -/
def lengthOf : JSON → Option JSON
  | .arr xs => some (.num (JsNum.ofNat xs.length))
  | .str s => some (.num (JsNum.ofNat s.length))
  | .obj kvs => lookup "length" kvs
  | _ => none

/-- The index keys `"0", "1", ..` of an array or string of length `n`. -/
def indexKeys (n : Nat) : List String := (List.range n).map Nat.repr

/-- `Object.keys(v)` for a non-null value: the own enumerable property names. -/
def objectKeys : JSON → List String
  | .obj kvs => kvs.map Prod.fst
  | .arr xs => indexKeys xs.length
  | .str s => indexKeys s.length
  | _ => []

/-- Element of a list at the index a key denotes, for a key of `indexKeys`. -/
def atKey {α : Type} (xs : List α) (k : String) : Option α :=
  (List.range xs.length).findSome? (fun i => if Nat.repr i = k then xs.get? i else none)

/-- Computed property read `v[k]`, for `k` among `Object.keys(v)`. -/
def getKey (v : JSON) (k : String) : Option JSON :=
  match v with
  | .obj kvs => lookup k kvs
  | .arr xs => atKey xs k
  | .str s => (atKey s.data k).map (fun c => JSON.str (String.singleton c))
  | _ => none

mutual
/-- `String(v)` (`ToString`).  An array is its elements joined by commas, with
`null` elements empty.  A plain object is `[object Object]`, but an object
with an own property `toString` has no callable conversion method left
(`OrdinaryToPrimitive` finds a non-function `toString` and a `valueOf` that
returns the object itself) and the conversion throws a `TypeError`. -/
def jsString : JSON → Except JsError String
  | .null => .ok "null"
  | .bool b => .ok (if b then "true" else "false")
  | .num n => .ok (numberToString n)
  | .str s => .ok s
  | .arr xs => (jsStringElems xs).map (String.intercalate ",")
  | .obj kvs => if (lookup "toString" kvs).isSome then .error .typeError else .ok "[object Object]"
termination_by structural v => v
/-- The strings `Array.prototype.join` puts between the commas. -/
def jsStringElems : List JSON → Except JsError (List String)
  | [] => .ok []
  | x :: rest =>
    match (match x with
           | .null => Except.ok ""
           | v => jsString v : Except JsError String) with
    | .error e => .error e
    | .ok a =>
      match jsStringElems rest with
      | .error e => .error e
      | .ok r => .ok (a :: r)
termination_by structural xs => xs
end

/-- `ToPrimitive(v)`: an array or object becomes its string, other values are
primitive already. -/
def toPrimitive (v : JSON) : Except JsError JSON :=
  match v with
  | .arr _ => (jsString v).map JSON.str
  | .obj _ => (jsString v).map JSON.str
  | _ => .ok v

/-- Lower-case hexadecimal digit. -/
def hexDigit (n : Nat) : Char := (Nat.toDigits 16 n).headD '0'

/-- One character of `QuoteJSONString`. -/
def quoteChar (c : Char) : List Char :=
  if c = '"' then ['\\', '"']
  else if c = '\\' then ['\\', '\\']
  else if c.toNat = 8 then ['\\', 'b']
  else if c.toNat = 9 then ['\\', 't']
  else if c.toNat = 10 then ['\\', 'n']
  else if c.toNat = 12 then ['\\', 'f']
  else if c.toNat = 13 then ['\\', 'r']
  else if c.toNat < 32 then ['\\', 'u', '0', '0', hexDigit (c.toNat / 16), hexDigit (c.toNat % 16)]
  else [c]

/-- `QuoteJSONString`: the JSON text of a string. -/
def quoteJSON (s : String) : String :=
  String.mk (['"'] ++ (s.data.map quoteChar).flatten ++ ['"'])

mutual
/-- `JSON.stringify(v)` without indentation.  A decoded JSON value has no
function-valued `toJSON`, no cycle and no non-finite number, so the result is
always a string. -/
def jsonStringify : JSON → String
  | .null => "null"
  | .bool b => if b then "true" else "false"
  | .num n => numberToString n
  | .str s => quoteJSON s
  | .arr xs => "[" ++ String.intercalate "," (jsonStringifyElems xs) ++ "]"
  | .obj kvs => "\x7b" ++ String.intercalate "," (jsonStringifyProps kvs) ++ "\x7d"
termination_by structural v => v
/-- The texts of the elements of an array. -/
def jsonStringifyElems : List JSON → List String
  | [] => []
  | x :: rest => jsonStringify x :: jsonStringifyElems rest
termination_by structural xs => xs
/-- The `"key":value` members of an object. -/
def jsonStringifyProps : List (String × JSON) → List String
  | [] => []
  | (k, v) :: rest => (quoteJSON k ++ ":" ++ jsonStringify v) :: jsonStringifyProps rest
termination_by structural kvs => kvs
end

/-! ## Strings -/

/-- Whether the characters `p` start the characters `t`. -/
def startsWith : List Char → List Char → Bool
  | [], _ => true
  | _ :: _, [] => false
  | a :: p, b :: t => a == b && startsWith p t

/-- Whether the characters `p` occur contiguously in `t`. -/
def occursIn (p : List Char) : List Char → Bool
  | [] => startsWith p []
  | b :: t => startsWith p (b :: t) || occursIn p t

/-- `t.includes(s)`. -/
def includes (t s : String) : Bool := occursIn s.data t.data

/-- `s.toLowerCase()`.  Only `A`-`Z` are mapped here, which is exact for the
one use the script makes of it, the search for `no`: no other character
lower-cases to `n` or to `o`. -/
def toLowerCase (s : String) : String := String.mk (s.data.map Char.toLower)

/-- White space and line terminators, as `String.prototype.trim` strips them. -/
def isJsSpace (c : Char) : Bool :=
  let n := c.toNat
  n = 9 || n = 10 || n = 11 || n = 12 || n = 13 || n = 32 || n = 160 || n = 5760 ||
  (8192 ≤ n && n ≤ 8202) || n = 8232 || n = 8233 || n = 8239 || n = 8287 || n = 12288 ||
  n = 65279

/-- `s.trim()`. -/
def trim (s : String) : String :=
  String.mk ((s.data.dropWhile isJsSpace).reverse.dropWhile isJsSpace).reverse

/-- `s.replace(/c/g, r)` for a one-character pattern and a replacement without
`$`: every occurrence of `c` becomes `r`. -/
def replaceAll (c : Char) (r : List Char) : List Char → List Char
  | [] => []
  | x :: rest => (if x = c then r else [x]) ++ replaceAll c r rest

/-- `a || b` on values already evaluated. -/
def jsOr (a b : Option JSON) : Option JSON := if truthy? a then a else b

/-- `a || d` with a default that is always defined. -/
def jsOrElse (a : Option JSON) (d : JSON) : JSON :=
  match a with
  | some v => if truthy v then v else d
  | none => d

/-- The expression `t.slice(0, n) + (t.length > n ? '…' : '')` for a truthy
`t`.  A string is cut; an array is sliced and then joined by the `+`; a number,
`true` or an object has no callable `slice` and the call throws. -/
def sliceEllipsis (t : JSON) (n : Nat) : Except JsError String :=
  match t with
  | .str s => .ok (s.take n ++ (if s.length > n then "…" else ""))
  | .arr xs => (jsString (.arr (xs.take n))).map (fun a => a ++ (if xs.length > n then "…" else ""))
  | _ => .error .typeError

/-! ## DOM fragments -/

/-- A DOM node: a text node or an element with attributes and children. -/
inductive Node
  | text (data : String)
  | elem (tag : String) (attrs : List (String × String)) (children : List Node)

/-- An entry of the `children` argument of `el`: a node, or a plain value. -/
inductive Child
  | node (n : Node)
  | val (v : JSON)

/-- Set an attribute, replacing an earlier value of the same name. -/
def setAttr (k v : String) : List (String × String) → List (String × String)
  | [] => [(k, v)]
  | (k', v') :: rest => if k' = k then (k, v) :: rest else (k', v') :: setAttr k v rest

/-- `n.setAttribute(k, v)`; `n.className = v` is the attribute `class`. -/
def Node.setAttribute : Node → String → String → Node
  | .elem t a cs, k, v => .elem t (setAttr k v a) cs
  | .text d, _, _ => .text d

/-- `n.textContent = s`: the children become one text node, none for `''`. -/
def Node.setTextContent : Node → String → Node
  | .elem t a _, s => .elem t a (if s = "" then [] else [.text s])
  | .text _, s => .text s

/-- `n.appendChild(c)`. -/
def Node.appendChild : Node → Node → Node
  | .elem t a cs, c => .elem t a (cs ++ [c])
  | .text d, _ => .text d

/-- `n.childNodes`. -/
def Node.childNodes : Node → List Node
  | .elem _ _ cs => cs
  | .text _ => []

/-- The `for (const k in attrs)` loop of `el`. -/
def applyAttrs (n : Node) : List (String × String) → Node
  | [] => n
  | (k, v) :: rest =>
    applyAttrs (if k = "class" then n.setAttribute "class" v
                else if k = "text" then n.setTextContent v
                else n.setAttribute k v) rest

/-- The `forEach` of `el` over its children: `null` is skipped, a string
becomes a text node, and anything else goes to `appendChild`, which throws a
`TypeError` for a value that is not a node. -/
def appendChildren (n : Node) : List Child → Except JsError Node
  | [] => .ok n
  | .val .null :: rest => appendChildren n rest
  | .val (.str s) :: rest => appendChildren (n.appendChild (.text s)) rest
  | .val _ :: _ => .error .typeError
  | .node m :: rest => appendChildren (n.appendChild m) rest

/-- The helper `el(tag, attrs, children)`, with `children` already wrapped in
a list when it is not an array. -/
def el (tag : String) (attrs : List (String × String)) (children : List Child) :
    Except JsError Node :=
  appendChildren (applyAttrs (.elem tag [] []) attrs) children

/-- The `Array.isArray(children) ? children : [children]` of `el` for a plain
value passed as `children`. -/
def asChildren (v : JSON) : List Child :=
  match v with
  | .arr xs => xs.map Child.val
  | v => [Child.val v]

mutual
/-- The text of a node: `textContent`. -/
def Node.textContent : Node → String
  | .text d => d
  | .elem _ _ cs => Node.textContents cs
termination_by structural n => n
/-- The concatenated text of a list of nodes. -/
def Node.textContents : List Node → String
  | [] => ""
  | c :: rest => Node.textContent c ++ Node.textContents rest
termination_by structural cs => cs
end

/-! ## Formatters -/

/-- What the script takes from the JavaScript runtime without the embedding
computing it.  `toFixed p d` is, for a primitive `p`, `none` when `Number(p)`
is `NaN` and otherwise `Number(p).toFixed(d)`; `dateLocale p` is `none` when
`new Date(p)` is an invalid date and otherwise its `toLocaleString()`. -/
structure Runtime where
  toFixed : JSON → Nat → Option String
  dateLocale : JSON → Option String

/-- The function `escapeHtml(s)`. -/
def escapeHtml (s : Option JSON) : Except JsError String :=
  match s with
  | none => .ok ""
  | some .null => .ok ""
  | some v =>
    (jsString v).map (fun t =>
      String.mk (replaceAll '>' "&gt;".data (replaceAll '<' "&lt;".data
        (replaceAll '&' "&amp;".data t.data))))

/-- The function `fmtNum(v, d)`. -/
def fmtNum (rt : Runtime) (v : Option JSON) (d : Nat) : Except JsError String :=
  match v with
  | none => .ok "-"
  | some .null => .ok "-"
  | some v => do
    let p ← toPrimitive v
    match rt.toFixed p d with
    | none => jsString v
    | some s => pure s

/-- The function `fmtDate(iso)`: the conversion and its `isNaN` branch run
inside `try`, and the `catch` returns `String(iso)`. -/
def fmtDate (rt : Runtime) (iso : JSON) : Except JsError String :=
  Except.tryCatch
    (do
      let p ← toPrimitive iso
      match rt.dateLocale p with
      | none => jsString iso
      | some s => pure s)
    (fun _ => jsString iso)

/-- The function `showEmpty(container, text)`: the container is emptied and
receives one `div.empty` with the text. -/
def showEmpty (_container : List Node) (text : String) : Except JsError (List Node) := do
  let n ← el "div" [("class", "empty"), ("text", text)] []
  pure ([] ++ [n])

/-! ## View builders -/

/-- The line `el('div', {}, [el('strong', {text: label}), el('span', {}, value)])`
that the builders append for a labelled value. -/
def kvLine (label value : String) : Except JsError Node := do
  let strong ← el "strong" [("text", label)] []
  let span ← el "span" [] [.val (.str value)]
  el "div" [] [.node strong, .node span]

/-- A `forEach` whose callback appends at most one node to `n` per item:
the callback gives `none` where it returns without appending. -/
def forEachAppend {α : Type} (f : α → Except JsError (Option Node)) :
    Node → List α → Except JsError Node
  | n, [] => .ok n
  | n, x :: rest =>
    match f x with
    | .error e => .error e
    | .ok none => forEachAppend f n rest
    | .ok (some c) => forEachAppend f (n.appendChild c) rest

/-- The items of a list paired with their index, as `forEach((x, idx) => ..)`
passes them. -/
def indexedFrom {α : Type} (i : Nat) : List α → List (Nat × α)
  | [] => []
  | x :: rest => (i, x) :: indexedFrom (i + 1) rest

/-- The items of a list paired with their index from 0. -/
def indexed {α : Type} (xs : List α) : List (Nat × α) := indexedFrom 0 xs

/-- `String(o[k])` for a key `k` of `Object.keys(o)`. -/
def keyString (o : JSON) (k : String) : Except JsError String :=
  match getKey o k with
  | some v => jsString v
  | none => .ok "undefined"

/-- The loop `Object.keys(o).forEach(k => box.appendChild(el('div', {}, k: String(o[k]))))`
of the monthly report sections. -/
def keyLines (box : Node) (o : JSON) : Except JsError Node :=
  forEachAppend (fun k => do
    let v ← keyString o k
    let line ← el "div" [] [.val (.str (k ++ ": " ++ v))]
    pure (some line)) box (objectKeys o)

/-- The inline style of the summary box of a prediction card. -/
def summaryStyle : String :=
  "margin-top:10px; padding:12px; border-radius:8px; background:#f3fdf7; border:1px solid #e6f6ef;"

/-- The inline style of the metadata block of a prediction card. -/
def metaStyle : String := "margin-top:10px; color:#556"

/-- The inline style of the title of a critical-case card. -/
def titleStyle : String :=
  "font-weight:700; font-size:16px; margin-bottom:8px; color: var(--green-dark)"

/-- `a || b` where `b` is only evaluated, and can only throw, when `a` is
falsy. -/
def jsOrLazy (a : Option JSON) (b : Except JsError JSON) : Except JsError JSON :=
  match a with
  | some v => if truthy v then .ok v else b
  | none => b

/-- The expression `(text ? (text.slice(0, n) + (text.length > n ? '…' : '')) : dflt)`. -/
def textSnippet (text : Option JSON) (n : Nat) (dflt : String) : Except JsError JSON :=
  match text with
  | some t => if truthy t then (sliceEllipsis t n).map JSON.str else .ok (.str dflt)
  | none => .ok (.str dflt)

/-- The function `buildPredictionCard(data)`. -/
def buildPredictionCard (rt : Runtime) (data : JSON) : Except JsError Node := do
  let card ← el "div" [("class", "result-card")] []
  let card := card.appendChild (← el "h4" [("text", "Prediction")] [])
  -- Headline/snippet
  let snippet ← jsOrLazy (jsOr (← getProp data "title") (← getProp data "headline"))
    (textSnippet (← getProp data "text") 160 "")
  let card ←
    (if truthy snippet then do
      let shown ← jsString snippet
      pure (card.appendChild (← el "div" [("class", "small-muted"), ("text", shown)] []))
    else pure card)
  -- Summary box
  let summary ← el "div" [("style", summaryStyle)] []
  let predVal := jsOrElse (jsOr (jsOr (← getProp data "prediction") (← getProp data "verdict"))
    (← getProp data "label")) (.str "-")
  let confidenceField ← getProp data "confidence"
  let confidenceScore ← getProp data "confidence_score"
  let confidence : JSON :=
    match confidenceField with
    | some c => c
    | none =>
      match confidenceScore with
      | some c => c
      | none => .null
  let probabilities ← getProp data "probabilities"
  let probs := jsOrElse (jsOr (jsOr probabilities (← getProp data "proba"))
    (← getProp data "probs")) .null
  let summary := summary.appendChild (← kvLine "Prediction: " (← jsString predVal))
  let confText ←
    (match confidence with
    | .null => pure "-"
    | c => jsString c)
  let summary := summary.appendChild (← kvLine "Confidence: " confText)
  let summary ←
    (if truthy probs && typeofObject probs then do
      let summary ←
        (match (← getProp probs "fake") with
        | some f => do pure (summary.appendChild (← kvLine "Fake: " (← jsString f)))
        | none => pure summary)
      let summary ←
        (match (← getProp probs "real") with
        | some r => do pure (summary.appendChild (← kvLine "Real: " (← jsString r)))
        | none => pure summary)
      forEachAppend (fun k =>
        if k = "fake" ∨ k = "real" then pure none
        else do
          let line ← kvLine (k ++ ": ") (← keyString probs k)
          pure (some line)) summary (objectKeys probs)
    else
      (match probabilities with
      | some (.arr xs) =>
        do pure (summary.appendChild (← kvLine "Probabilities: " (jsonStringify (.arr xs))))
      | _ => pure summary))
  let card := card.appendChild summary
  -- Additional readable metadata (latencies, timestamp)
  let meta ← el "div" [("style", metaStyle)] []
  let meta ←
    (match (← getProp data "inference_latency") with
    | some v => do
      let t ← fmtNum rt (some v) 4
      pure (meta.appendChild (← el "div" [] [.val (.str ("Inference latency: " ++ t ++ " s"))]))
    | none => pure meta)
  let meta ←
    (match (← getProp data "server_latency") with
    | some v => do
      let t ← fmtNum rt (some v) 4
      pure (meta.appendChild (← el "div" [] [.val (.str ("Server latency: " ++ t ++ " s"))]))
    | none => pure meta)
  let meta ←
    (match (← getProp data "total_latency") with
    | some v => do
      let t ← fmtNum rt (some v) 4
      pure (meta.appendChild (← el "div" [] [.val (.str ("Total latency: " ++ t ++ " s"))]))
    | none => pure meta)
  let meta ←
    (match (← getProp data "timestamp") with
    | some v =>
      if truthy v then do
        let t ← fmtDate rt v
        pure (meta.appendChild (← el "div" [] [.val (.str ("Timestamp: " ++ t))]))
      else pure meta
    | none => pure meta)
  let card := if meta.childNodes.length ≠ 0 then card.appendChild meta else card
  pure card

/-- The function `buildCriticalCard(c)`. -/
def buildCriticalCard (rt : Runtime) (c : JSON) : Except JsError Node := do
  let card ← el "div" [("class", "result-card")] []
  -- Header: bold title
  let titleText ← jsOrLazy (jsOr (← getProp c "title") (← getProp c "headline"))
    (textSnippet (← getProp c "text") 120 "Case")
  let titleNode ← el "div" [("style", titleStyle)] (asChildren titleText)
  let card := card.appendChild titleNode
  -- Result lines
  let card ←
    (match (← getProp c "prediction") with
    | some v => do pure (card.appendChild (← kvLine "Prediction: " (← jsString v)))
    | none => pure card)
  let card ←
    (match (← getProp c "confidence") with
    | some v => do pure (card.appendChild (← kvLine "Confidence: " (← jsString v)))
    | none => pure card)
  -- Timestamp
  let card ←
    (match (← getProp c "timestamp") with
    | some v =>
      if truthy v then do
        let t ← fmtDate rt v
        pure (card.appendChild (← el "div" [("style", "margin-top:8px; color:#556")]
          [.val (.str ("Time: " ++ t))]))
      else pure card
    | none => pure card)
  pure card

/-- The five `avgFields` of the monthly report: property name and label. -/
def avgFields : List (String × String) :=
  [("average_confidence", "Average confidence"),
   ("average_latency_total", "Average latency (total)"),
   ("average_latency_inference", "Average latency (inference)"),
   ("average_latency_server", "Average latency (server)"),
   ("model_drift", "Model drift")]

/-- The inline style of the section boxes of the monthly report. -/
def sectionStyle : String := "margin-top:8px"

/-- The function `buildMonthlyReportCard(report)`.  The flag `avgAdded` is set
exactly when a line is appended to `avgBox`, so it is read off its children. -/
def buildMonthlyReportCard (rt : Runtime) (report : JSON) : Except JsError Node := do
  let card ← el "div" [("class", "result-card")] []
  -- top metadata
  let card ←
    (match (← getProp report "timestamp") with
    | some v =>
      if truthy v then do
        let t ← fmtDate rt v
        pure (card.appendChild (← el "div" [("text", "Generated: " ++ t)] []))
      else pure card
    | none => pure card)
  let card ←
    (match (← getProp report "month") with
    | some v =>
      if truthy v then do
        let m ← escapeHtml (some (.str (← jsString v)))
        pure (card.appendChild (← el "div" [("text", "Month: " ++ m)] []))
      else pure card
    | none => pure card)
  -- totals
  let card ←
    (match (← getProp report "total_predictions") with
    | some v => do
      let t ← jsString v
      pure (card.appendChild (← el "div" [("text", "Total predictions: " ++ t)] []))
    | none => pure card)
  let card ←
    (match (← getProp report "totals") with
    | some v =>
      if truthy v && typeofObject v then do
        let t ← el "div" [("style", sectionStyle)] []
        let t := t.appendChild (← el "strong" [("text", "Totals:")] [])
        let t ← keyLines t v
        pure (card.appendChild t)
      else pure card
    | none => pure card)
  -- fake_real_ratio
  let card ←
    (match (← getProp report "fake_real_ratio") with
    | some v =>
      if truthy v then do
        let fr ← el "div" [("style", sectionStyle)] []
        let fr := fr.appendChild (← el "strong" [("text", "Fake / Real ratio")] [])
        let fr ← keyLines fr v
        pure (card.appendChild fr)
      else pure card
    | none => pure card)
  -- Averages and latencies
  let avgBox ← el "div" [("style", sectionStyle)] []
  let avgBox ← forEachAppend (fun (kl : String × String) => do
    match (← getProp report kl.1) with
    | some v => do
      let t ← fmtNum rt (some v) 4
      let line ← el "div" [] [.val (.str (kl.2 ++ ": " ++ t))]
      pure (some line)
    | none => pure none) avgBox avgFields
  let card ←
    (if avgBox.childNodes.length ≠ 0 then do
      let card := card.appendChild
        (← el "div" [("style", "font-weight:700; margin-top:10px")] [.val (.str "Averages & model")])
      pure (card.appendChild avgBox)
    else pure card)
  -- Error analysis (structured)
  let card ←
    (match (← getProp report "error_analysis") with
    | some v =>
      if truthy v then do
        let e ← el "div" [("style", sectionStyle)] []
        let e := e.appendChild (← el "strong" [("text", "Error analysis")] [])
        let e ← keyLines e v
        pure (card.appendChild e)
      else pure card
    | none => pure card)
  -- Server health
  let card ←
    (match (← getProp report "server_health") with
    | some v =>
      if truthy v then do
        let sh ← el "div" [("style", sectionStyle)] []
        let sh := sh.appendChild (← el "strong" [("text", "Server health")] [])
        let sh ← keyLines sh v
        pure (card.appendChild sh)
      else pure card
    | none => pure card)
  -- Anomalies
  let card ←
    (match (← getProp report "anomalies") with
    | some v =>
      if truthy v then do
        let a ← el "div" [("style", sectionStyle)] []
        let a := a.appendChild (← el "strong" [("text", "Anomalies")] [])
        let a ←
          (match v with
          | .arr [] => do
            pure (a.appendChild (← el "div" [] [.val (.str "No anomalies detected.")]))
          | .arr xs =>
            forEachAppend (fun (ia : Nat × JSON) => do
              let shown :=
                match ia.2 with
                | .str t => t
                | an => jsonStringify an
              let line ← el "div" [] [.val (.str (Nat.repr (ia.1 + 1) ++ ". " ++ shown))]
              pure (some line)) a (indexed (xs.take 10))
          | w => do
            pure (a.appendChild (← el "div" [] [.val (.str (← jsString w))])))
        pure (card.appendChild a)
      else pure card
    | none => pure card)
  -- Top issues
  let card ←
    (match (← getProp report "top_issues") with
    | some (.arr xs) => do
      let ti ← el "div" [("style", sectionStyle)] []
      let ti := ti.appendChild (← el "strong" [("text", "Top issues")] [])
      let ti ← forEachAppend (fun (ii : Nat × JSON) => do
        let line ← el "div" [] [.val (.str (Nat.repr (ii.1 + 1) ++ ". " ++ (← jsString ii.2)))]
        pure (some line)) ti (indexed (xs.take 8))
      pure (card.appendChild ti)
    | _ => pure card)
  pure card

/-! ## Request handlers -/

/-- The answer to a request: the status, and what `res.text()` and
`res.json()` resolve to or reject with. -/
structure Response where
  status : Nat
  text : Except JsError String
  json : Except JsError JSON

/-- `res.ok`: the status is in the range 200-299. -/
def Response.ok (res : Response) : Bool := 200 ≤ res.status && res.status ≤ 299

/-- The page state the handlers read and write: the value of the text area,
the children of the three containers, the alerts shown and the errors logged
with `console.error`. -/
structure Page where
  newsText : String
  resultsContainer : List Node
  criticalContainer : List Node
  monthlyContainer : List Node
  alerts : List String
  logged : List JsError

/-- The handler `predict()`, given the outcome of its one `fetch`.  The `try`
block writes to `resultsContainer` only and the `catch` block overwrites that
container, so the `catch` block can start from the page as it was before `try`. -/
def predict (rt : Runtime) (fetch : Except JsError Response) (pg : Page) : Except JsError Page :=
  let text := trim pg.newsText
  if text = "" then
    pure { pg with alerts := pg.alerts ++ ["Please enter the news text."] }
  else do
    let pg := { pg with resultsContainer := ← showEmpty pg.resultsContainer "Verifying… please wait" }
    Except.tryCatch
      (do
        let res ← fetch
        if !res.ok then
          let txt ← res.text
          let shown ← showEmpty pg.resultsContainer
            ("Server did not return a valid result: " ++ Nat.repr res.status ++ " " ++
              (if txt = "" then "" else txt))
          pure { pg with resultsContainer := shown }
        else
          let data ← res.json
          let pg := { pg with resultsContainer := [] }
          let card ← buildPredictionCard rt data
          pure { pg with resultsContainer := pg.resultsContainer ++ [card] })
      (fun err => do
        let pg := { pg with logged := pg.logged ++ [err] }
        let shown ← showEmpty pg.resultsContainer
          "Failed to contact server. Make sure backend is running."
        pure { pg with resultsContainer := shown })

/-- The handler `loadCriticalCases()`, given the outcome of its one `fetch`.
The `try` block writes to `criticalContainer` only and the `catch` block
empties that container first. -/
def loadCriticalCases (rt : Runtime) (fetch : Except JsError Response) (pg : Page) :
    Except JsError Page := do
  let pg := { pg with criticalContainer := [] }
  let loading ← el "div" [("class", "small-muted"), ("text", "Loading…")] []
  let pg := { pg with criticalContainer := pg.criticalContainer ++ [loading] }
  Except.tryCatch
    (do
      let res ← fetch
      if !res.ok then
        let pg := { pg with criticalContainer := [] }
        let msg ← el "div" [("class", "small-muted"),
          ("text", "Server error " ++ Nat.repr res.status)] []
        pure { pg with criticalContainer := pg.criticalContainer ++ [msg] }
      else
        let data ← res.json
        let cases := jsOrElse (← getProp data "cases") (.arr [])
        let pg := { pg with criticalContainer := [] }
        if !truthy? (lengthOf cases) then
          let msg ← el "div" [("class", "small-muted"), ("text", "No critical cases found.")] []
          pure { pg with criticalContainer := pg.criticalContainer ++ [msg] }
        else
          let wrap ← el "div" [("class", "cards")] []
          -- display up to 6
          let wrap ←
            match cases with
            | .arr xs =>
              forEachAppend (fun c => do pure (some (← buildCriticalCard rt c))) wrap (xs.take 6)
            | _ => throw JsError.typeError
          pure { pg with criticalContainer := pg.criticalContainer ++ [wrap] })
    (fun err => do
      let pg := { pg with logged := pg.logged ++ [err] }
      let pg := { pg with criticalContainer := [] }
      let msg ← el "div" [("class", "small-muted"), ("text", "Failed to load critical cases.")] []
      pure { pg with criticalContainer := pg.criticalContainer ++ [msg] })

/-- The handler `loadMonthlyReport()`, given the outcome of its one `fetch`.
The `try` block writes to `monthlyContainer` only and the `catch` block
empties that container first. -/
def loadMonthlyReport (rt : Runtime) (fetch : Except JsError Response) (pg : Page) :
    Except JsError Page := do
  let pg := { pg with monthlyContainer := [] }
  let loading ← el "div" [("class", "small-muted"), ("text", "Loading…")] []
  let pg := { pg with monthlyContainer := pg.monthlyContainer ++ [loading] }
  Except.tryCatch
    (do
      let res ← fetch
      if !res.ok then
        let pg := { pg with monthlyContainer := [] }
        let msg ← el "div" [("class", "small-muted"),
          ("text", "Server error " ++ Nat.repr res.status)] []
        pure { pg with monthlyContainer := pg.monthlyContainer ++ [msg] }
      else
        let data ← res.json
        let pg := { pg with monthlyContainer := [] }
        -- If backend returns message about no data
        let message ← if truthy data then getProp data "message" else pure none
        match message with
        | some (.str m) =>
          if truthy (.str m) && includes (toLowerCase m) "no" then
            let msg ← el "div" [("class", "small-muted"), ("text", m)] []
            pure { pg with monthlyContainer := pg.monthlyContainer ++ [msg] }
          else
            let card ← buildMonthlyReportCard rt data
            pure { pg with monthlyContainer := pg.monthlyContainer ++ [card] }
        | _ =>
          let card ← buildMonthlyReportCard rt data
          pure { pg with monthlyContainer := pg.monthlyContainer ++ [card] })
    (fun err => do
      let pg := { pg with logged := pg.logged ++ [err] }
      let pg := { pg with monthlyContainer := [] }
      let msg ← el "div" [("class", "small-muted"), ("text", "Failed to load monthly report.")] []
      pure { pg with monthlyContainer := pg.monthlyContainer ++ [msg] })

/-! ## Specification-side definitions -/

/-- A `div` with a class holding one text: the message node of the handlers. -/
def messageNode (cls text : String) : Node :=
  .elem "div" [("class", cls)] (if text = "" then [] else [.text text])

/-- The replacement of one character in a single pass over the input. -/
def escapeChar (c : Char) : List Char :=
  if c = '&' then "&amp;".data
  else if c = '<' then "&lt;".data
  else if c = '>' then "&gt;".data
  else [c]

/-- The string obtained by replacing every character independently. -/
def escapeOnePass (s : String) : String := String.mk (s.data.map escapeChar).flatten

/-- The container holds exactly one message, whose text contains the status
code and the body text. -/
def ErrorShown (container : List Node) (status : Nat) (body : String) : Prop :=
  ∃ cls text, container = [messageNode cls text] ∧
    includes text (Nat.repr status) = true ∧ includes text body = true

/-- The fallback text of `predict`. -/
def predictFallback : String := "Failed to contact server. Make sure backend is running."

/-- The fallback text of `loadCriticalCases`. -/
def criticalFallback : String := "Failed to load critical cases."

/-- The fallback text of `loadMonthlyReport`. -/
def monthlyFallback : String := "Failed to load monthly report."

/-- The special case of `loadMonthlyReport`: `message` is a string that
contains `no` in some letter case. -/
def isNoDataMessage (data : JSON) : Option String :=
  match data with
  | .obj kvs =>
    match lookup "message" kvs with
    | some (.str m) => if includes (toLowerCase m) "no" then some m else none
    | _ => none
  | _ => none

/-- A runtime for the concrete evaluations: every string fails to parse as a
number or a date. -/
def plainRuntime : Runtime := ⟨fun _ _ => none, fun _ => none⟩

/-- A page with a text to verify and empty containers. -/
def startPage : Page := ⟨"some news", [], [], [], [], []⟩

/-- The ways the `try` block of `predict` raises: the request, the reading of
the body, the JSON decoding or the view builder. -/
def PredictRaises (rt : Runtime) (fetch : Except JsError Response) : Prop :=
  (∃ e, fetch = .error e) ∨
  (∃ res e, fetch = .ok res ∧ res.ok = false ∧ res.text = .error e) ∨
  (∃ res e, fetch = .ok res ∧ res.ok = true ∧ res.json = .error e) ∨
  (∃ res data e, fetch = .ok res ∧ res.ok = true ∧ res.json = .ok data ∧
    buildPredictionCard rt data = .error e)

/-- The ways the `try` block of `loadCriticalCases` raises: the request, the
JSON decoding, or the view builder on one of the first six cases. -/
def CriticalRaises (rt : Runtime) (fetch : Except JsError Response) : Prop :=
  (∃ e, fetch = .error e) ∨
  (∃ res e, fetch = .ok res ∧ res.ok = true ∧ res.json = .error e) ∨
  (∃ res data xs c e, fetch = .ok res ∧ res.ok = true ∧ res.json = .ok data ∧
    getProp data "cases" = .ok (some (.arr xs)) ∧ c ∈ xs.take 6 ∧
    buildCriticalCard rt c = .error e)

/-- The ways the `try` block of `loadMonthlyReport` raises: the request, the
JSON decoding, or the view builder where it is called. -/
def MonthlyRaises (rt : Runtime) (fetch : Except JsError Response) : Prop :=
  (∃ e, fetch = .error e) ∨
  (∃ res e, fetch = .ok res ∧ res.ok = true ∧ res.json = .error e) ∨
  (∃ res data e, fetch = .ok res ∧ res.ok = true ∧ res.json = .ok data ∧
    isNoDataMessage data = none ∧ buildMonthlyReportCard rt data = .error e)

/-- A labelled line of a card: `<div><strong>label</strong><span>value</span></div>`. -/
def lineNode (label value : String) : Node :=
  .elem "div" [] [.elem "strong" [] (if label = "" then [] else [.text label]),
    .elem "span" [] [.text value]]

/-- The attributes of a node. -/
def Node.attrs : Node → List (String × String)
  | .elem _ a _ => a
  | .text _ => []

/-- Whether a node carries the given inline style. -/
def hasStyle (st : String) (n : Node) : Bool := decide (("style", st) ∈ n.attrs)

/-- The lines of the summary box of a prediction card. -/
def summaryLines (card : Node) : List Node :=
  ((card.childNodes.filter (hasStyle summaryStyle)).map Node.childNodes).flatten

/-- The metadata blocks of a prediction card. -/
def metaBlocks (card : Node) : List Node := card.childNodes.filter (hasStyle metaStyle)

/-- The text `String(v)` where the conversion succeeds. -/
def shown (v : JSON) : String :=
  match jsString v with
  | .ok s => s
  | .error _ => ""

/-- The text `String(o[k])` where the conversion succeeds. -/
def shownKey (o : JSON) (k : String) : String :=
  match keyString o k with
  | .ok s => s
  | .error _ => ""

/-- The first candidate, in priority order, that is present (defined). -/
def firstDefined : List (Option JSON) → Option JSON
  | [] => none
  | some v :: _ => some v
  | none :: rest => firstDefined rest

/-- The first candidate, in priority order, that is present and truthy. -/
def firstTruthy : List (Option JSON) → Option JSON
  | [] => none
  | some v :: rest => if truthy v then some v else firstTruthy rest
  | none :: rest => firstTruthy rest

/-- The verdict text for the chosen field: its string, or `-` without one. -/
def verdictText (choice : Option JSON) : String :=
  match choice with
  | some v => shown v
  | none => "-"

/-- The three verdict fields of a response, in priority order. -/
def verdictFields (kvs : List (String × JSON)) : List (Option JSON) :=
  [lookup "prediction" kvs, lookup "verdict" kvs, lookup "label" kvs]

/-- C4 as stated: the first summary line shows the first defined verdict field. -/
def VerdictIsFirstDefined (rt : Runtime) (kvs : List (String × JSON)) : Prop :=
  ∀ card, buildPredictionCard rt (.obj kvs) = .ok card →
    (summaryLines card).head? =
      some (lineNode "Prediction: " (verdictText (firstDefined (verdictFields kvs))))

/-- The nodes a `forEachAppend` appends, in order. -/
def appended {α : Type} (f : α → Except JsError (Option Node)) : List α → List Node
  | [] => []
  | x :: rest =>
    (match f x with
     | .ok (some c) => [c]
     | _ => []) ++ appended f rest

/-- The line for a labelled value that is shown only when defined. -/
def optLine (label : String) (o : Option JSON) : List Node :=
  match o with
  | some v => [lineNode label (shown v)]
  | none => []

/-- The probability lines the summary shows for a probability object: the
Fake line and the Real line where the key is defined, then one line per
remaining key in key order. -/
def probabilityLines (ps : List (String × JSON)) : List Node :=
  optLine "Fake: " (lookup "fake" ps) ++ optLine "Real: " (lookup "real" ps) ++
  ((ps.map Prod.fst).filter (fun k => k ≠ "fake" ∧ k ≠ "real")).map
    (fun k => lineNode (k ++ ": ") (shownKey (.obj ps) k))

/-- The answer 500 with the body `boom`. -/
def errorResponse : Response := ⟨500, .ok "boom", .ok .null⟩

/-- A line holding one text: `<div>text</div>`. -/
def textLine (s : String) : Node := .elem "div" [] [.text s]

/-- Whether a node is a section box opened by the header `<strong>hdr</strong>`. -/
def hasHeader (hdr : String) (n : Node) : Bool :=
  match n.childNodes with
  | .elem tag _ [.text h] :: _ => tag == "strong" && h == hdr
  | _ => false

/-- The anomalies sections of a monthly report card. -/
def anomalySections (card : Node) : List Node := card.childNodes.filter (hasHeader "Anomalies")

/-- The text of an anomaly entry: the entry itself when it is a string, its
JSON text otherwise. -/
def entryText : JSON → String
  | .str s => s
  | v => jsonStringify v

/-- The lines `start. e₀`, `start+1. e₁`, .. for the entries `e₀, e₁, ..`. -/
def numbered (start : Nat) : List JSON → List Node
  | [] => []
  | an :: rest => textLine (Nat.repr start ++ ". " ++ entryText an) :: numbered (start + 1) rest

/-- The lines of the anomalies section after its header: the notice for the
empty list, the first ten entries numbered from 1 for a non-empty list, the
string of the value for anything else. -/
def anomalyLines (a : JSON) : List Node :=
  match a with
  | .arr [] => [textLine "No anomalies detected."]
  | .arr xs => numbered 1 (xs.take 10)
  | v => [textLine (shown v)]

/-- The anomalies section with the given lines after its header. -/
def anomalySection (lines : List Node) : Node :=
  .elem "div" [("style", sectionStyle)] (.elem "strong" [] [.text "Anomalies"] :: lines)

/-- C9 as stated: whenever `anomalies` is present, the card has exactly the
anomalies section with the lines of `anomalyLines`. -/
def AnomaliesShownWhenPresent (rt : Runtime) (kvs : List (String × JSON)) : Prop :=
  ∀ a card, lookup "anomalies" kvs = some a → buildMonthlyReportCard rt (.obj kvs) = .ok card →
    anomalySections card = [anomalySection (anomalyLines a)]

/-- The step from `c` to `c'` appends children that all satisfy `Q`. -/
def Grows (Q : Node → Prop) (c c' : Node) : Prop :=
  ∀ cs, c = .elem "div" [("class", "result-card")] cs →
    ∃ ex, c' = .elem "div" [("class", "result-card")] (cs ++ ex) ∧ ∀ n ∈ ex, Q n

/-- The message `loadCriticalCases` shows for an empty list. -/
def noCasesMessage : Node := messageNode "small-muted" "No critical cases found."

/-- The `cases` list of a critical-cases response: the list itself, the empty
list when the field is absent. -/
def casesOf (kvs : List (String × JSON)) : Option (List JSON) :=
  match lookup "cases" kvs with
  | none => some []
  | some (.arr xs) => some xs
  | some _ => none

/-- The container shows what C5 describes for the list `cases`: the one
message for the empty list, otherwise one wrapper holding exactly
`min n 6` cards, the cards of the first cases in their order. -/
def CriticalRendered (rt : Runtime) (cases : List JSON) (container : List Node) : Prop :=
  (cases = [] → container = [noCasesMessage]) ∧
  (cases ≠ [] → ∃ cards, container = [.elem "div" [("class", "cards")] cards] ∧
    cards.length = min cases.length 6 ∧
    List.Forall₂ (fun c card => buildCriticalCard rt c = .ok card) (cases.take 6) cards)

/-- C5 as stated, for one response: the handler returns and its container
shows the cases as `CriticalRendered` describes. -/
def CriticalCasesClaim (rt : Runtime) (res : Response) (cases : List JSON) (pg : Page) : Prop :=
  ∃ pg', loadCriticalCases rt (.ok res) pg = .ok pg' ∧
    CriticalRendered rt cases pg'.criticalContainer

/-- A successful critical-cases response whose single case has a numeric title. -/
def numericTitleResponse : Response :=
  ⟨200, .ok "", .ok (.obj [("cases", .arr [.obj [("title", .num ⟨false, 5, 0⟩)]])])⟩

/-- C6 as stated, for one response object: the handler returns, and its
container holds only the message verbatim when `message` is a string
containing `no` in some letter case, and the card of
`buildMonthlyReportCard` in every other case. -/
def MonthlyClaim (rt : Runtime) (res : Response) (kvs : List (String × JSON)) (pg : Page) : Prop :=
  ∃ pg', loadMonthlyReport rt (.ok res) pg = .ok pg' ∧
    match isNoDataMessage (.obj kvs) with
    | some m => pg'.monthlyContainer = [messageNode "small-muted" m]
    | none => ∃ card, buildMonthlyReportCard rt (.obj kvs) = .ok card ∧
        pg'.monthlyContainer = [card]

/-- A report whose `month` is an object with an own property `toString`. -/
def oddMonthReport : List (String × JSON) :=
  [("month", .obj [("toString", .num ⟨false, 1, 0⟩)])]

/-- The text contains `n` or `N` directly followed by `o` or `O`. -/
def ContainsNoAnyCase (m : String) : Prop :=
  ∃ (a b : List Char) (c d : Char), m.data = a ++ c :: d :: b ∧
    (c = 'n' ∨ c = 'N') ∧ (d = 'o' ∨ d = 'O')

mutual
/-- No object inside the value has an own property `toString`. -/
def plain : JSON → Bool
  | .null => true
  | .bool _ => true
  | .num _ => true
  | .str _ => true
  | .arr xs => plainList xs
  | .obj kvs => (lookup "toString" kvs).isNone && plainProps kvs
termination_by structural v => v
/-- Every element of the list is `plain`. -/
def plainList : List JSON → Bool
  | [] => true
  | x :: rest => plain x && plainList rest
termination_by structural xs => xs
/-- Every property value of the list is `plain`. -/
def plainProps : List (String × JSON) → Bool
  | [] => true
  | (_, v) :: rest => plain v && plainProps rest
termination_by structural kvs => kvs
end

/-- The computation returns a value: it does not raise. -/
def Returns {α : Type} (x : Except JsError α) : Prop := ∃ a, x = .ok a

/-- The `text` field can be cut to a snippet: it is absent, falsy, a string or
a list. -/
def sliceable : Option JSON → Bool
  | none => true
  | some (.str _) => true
  | some (.arr _) => true
  | some v => !truthy v

/-- A value `el` accepts as `children`: a string, or a list of strings and
`null`s. -/
def appendable : JSON → Bool
  | .str _ => true
  | .arr xs => xs.all (fun x =>
      match x with
      | .str _ => true
      | .null => true
      | _ => false)
  | _ => false

/-- The fields the snippet of a prediction card is taken from are usable:
`title` or `headline` is truthy, or `text` can be cut. -/
def snippetOk (kvs : List (String × JSON)) : Bool :=
  truthy? (jsOr (lookup "title" kvs) (lookup "headline" kvs)) || sliceable (lookup "text" kvs)

/-- The fields the title of a critical-case card is taken from are usable: the
first truthy of `title`, `headline` is a string or a list of strings and
`null`s, and without one `text` can be cut. -/
def titleOk (kvs : List (String × JSON)) : Bool :=
  match jsOr (lookup "title" kvs) (lookup "headline" kvs) with
  | some v => if truthy v then appendable v else sliceable (lookup "text" kvs)
  | none => sliceable (lookup "text" kvs)

/-- C7 as stated, for one object: each of the three builders returns a card. -/
def BuildersNeverRaise (rt : Runtime) (kvs : List (String × JSON)) : Prop :=
  (∃ card, buildPredictionCard rt (.obj kvs) = .ok card) ∧
  (∃ card, buildCriticalCard rt (.obj kvs) = .ok card) ∧
  (∃ card, buildMonthlyReportCard rt (.obj kvs) = .ok card)

/-! ## Lemmas on the embedding -/

@[simp] theorem bind_ok_eq {α β : Type} (a : α) (f : α → Except JsError β) :
    (Except.ok a >>= f) = f a := rfl

@[simp] theorem bind_error_eq {α β : Type} (e : JsError) (f : α → Except JsError β) :
    (Except.error e >>= f) = Except.error e := rfl

@[simp] theorem pure_eq_ok {α : Type} (a : α) : (pure a : Except JsError α) = Except.ok a := rfl

@[simp] theorem throw_eq_error {α : Type} (e : JsError) :
    (throw e : Except JsError α) = Except.error e := rfl

@[simp] theorem tryCatch_ok {α : Type} (a : α) (h : JsError → Except JsError α) :
    Except.tryCatch (Except.ok a) h = Except.ok a := rfl

@[simp] theorem tryCatch_error {α : Type} (e : JsError) (h : JsError → Except JsError α) :
    Except.tryCatch (Except.error e) h = h e := rfl

@[simp] theorem map_ok_eq {α β : Type} (a : α) (f : α → β) :
    (Except.ok a : Except JsError α).map f = Except.ok (f a) := rfl

@[simp] theorem map_error_eq {α β : Type} (e : JsError) (f : α → β) :
    (Except.error e : Except JsError α).map f = Except.error e := rfl

theorem bind_eq_ok {α β : Type} (x : Except JsError α) (f : α → Except JsError β) (b : β) :
    (x >>= f) = Except.ok b ↔ ∃ a, x = Except.ok a ∧ f a = Except.ok b := by
  cases x with
  | error e => simp
  | ok a => simp

theorem el_message (cls text : String) :
    el "div" [("class", cls), ("text", text)] [] = .ok (messageNode cls text) := by
  simp [el, applyAttrs, appendChildren, Node.setAttribute, Node.setTextContent, setAttr,
    messageNode]

theorem showEmpty_eq (c : List Node) (text : String) :
    showEmpty c text = .ok [messageNode "empty" text] := by
  simp [showEmpty, el_message]

theorem startsWith_append (p t : List Char) : startsWith p (p ++ t) = true := by
  induction p with
  | nil => cases t <;> rfl
  | cons a p ih => simp [startsWith, ih]

theorem occursIn_of_startsWith (p t : List Char) (h : startsWith p t = true) :
    occursIn p t = true := by
  cases t with
  | nil => simpa [occursIn] using h
  | cons b t => simp [occursIn, h]

theorem occursIn_append (a p b : List Char) : occursIn p (a ++ (p ++ b)) = true := by
  induction a with
  | nil => exact occursIn_of_startsWith _ _ (startsWith_append p b)
  | cons x a ih => simp [occursIn, ih]

theorem includes_mid (a s b : String) : includes (a ++ s ++ b) s = true := by
  simp [includes, String.data_append, occursIn_append]

theorem includes_end (a s : String) : includes (a ++ s) s = true := by
  have h := includes_mid a s ""
  simpa using h

theorem replaceAll_eq (c : Char) (r xs : List Char) :
    replaceAll c r xs = (xs.map (fun x => if x = c then r else [x])).flatten := by
  induction xs with
  | nil => rfl
  | cons x xs ih => simp [replaceAll, ih]

theorem replaceAll_append (c : Char) (r xs ys : List Char) :
    replaceAll c r (xs ++ ys) = replaceAll c r xs ++ replaceAll c r ys := by
  induction xs with
  | nil => rfl
  | cons x xs ih => simp [replaceAll, ih]

theorem escape_three_passes (xs : List Char) :
    replaceAll '>' "&gt;".data (replaceAll '<' "&lt;".data (replaceAll '&' "&amp;".data xs)) =
      (xs.map escapeChar).flatten := by
  induction xs with
  | nil => rfl
  | cons x xs ih =>
    have step : replaceAll '>' "&gt;".data (replaceAll '<' "&lt;".data
        (if x = '&' then "&amp;".data else [x])) = escapeChar x := by
      unfold escapeChar
      by_cases h1 : x = '&'
      · subst h1; rfl
      · by_cases h2 : x = '<'
        · subst h2; rfl
        · by_cases h3 : x = '>'
          · subst h3; rfl
          · simp [h1, h2, h3, replaceAll]
    simp only [replaceAll, replaceAll_append, List.map_cons, List.flatten_cons, ih, step]

theorem escapeChar_no_angle (c x : Char) (hx : x ∈ escapeChar c) : x ≠ '<' ∧ x ≠ '>' := by
  unfold escapeChar at hx
  by_cases h1 : c = '&'
  · simp only [h1, if_true] at hx
    have : x ∈ ['&', 'a', 'm', 'p', ';'] := hx
    simp only [List.mem_cons, List.mem_singleton, List.not_mem_nil, or_false] at this
    rcases this with h | h | h | h | h <;> subst h <;> decide
  · by_cases h2 : c = '<'
    · simp only [h1, h2, if_true, if_false] at hx
      have : x ∈ ['&', 'l', 't', ';'] := hx
      simp only [List.mem_cons, List.mem_singleton, List.not_mem_nil, or_false] at this
      rcases this with h | h | h | h <;> subst h <;> decide
    · by_cases h3 : c = '>'
      · simp only [h1, h2, h3, if_true, if_false] at hx
        have : x ∈ ['&', 'g', 't', ';'] := hx
        simp only [List.mem_cons, List.mem_singleton, List.not_mem_nil, or_false] at this
        rcases this with h | h | h | h <;> subst h <;> decide
      · simp only [h1, h2, h3, if_false, List.mem_singleton] at hx
        subst hx
        exact ⟨h2, h3⟩

theorem forEachAppend_error {α : Type} (f : α → Except JsError (Option Node)) (xs : List α)
    (x : α) (hx : x ∈ xs) (e : JsError) (hf : f x = .error e) :
    ∀ n, ∃ e', forEachAppend f n xs = .error e' := by
  induction xs with
  | nil => cases hx
  | cons y ys ih =>
    intro n
    rcases List.mem_cons.1 hx with h | h
    · subst h
      exact ⟨e, by simp [forEachAppend, hf]⟩
    · cases hy : f y with
      | error e'' => exact ⟨e'', by simp [forEachAppend, hy]⟩
      | ok o =>
        cases o with
        | none => simpa [forEachAppend, hy] using ih h n
        | some c => simpa [forEachAppend, hy] using ih h (n.appendChild c)

@[simp] theorem el_class (tag c : String) :
    el tag [("class", c)] [] = .ok (.elem tag [("class", c)] []) := rfl

@[simp] theorem el_style (tag c : String) :
    el tag [("style", c)] [] = .ok (.elem tag [("style", c)] []) := rfl

@[simp] theorem el_text (tag t : String) :
    el tag [("text", t)] [] = .ok (.elem tag [] (if t = "" then [] else [.text t])) := rfl

@[simp] theorem el_str (tag s : String) :
    el tag [] [.val (.str s)] = .ok (.elem tag [] [.text s]) := rfl

@[simp] theorem el_style_str (tag c s : String) :
    el tag [("style", c)] [.val (.str s)] = .ok (.elem tag [("style", c)] [.text s]) := rfl

@[simp] theorem el_two (tag : String) (a b : Node) :
    el tag [] [.node a, .node b] = .ok (.elem tag [] [a, b]) := rfl

theorem length_truthy (xs : List JSON) (c : JSON) (hc : c ∈ xs.take 6) :
    truthy? (lengthOf (.arr xs)) = true := by
  cases xs with
  | nil => simp at hc
  | cons x xs => simp [lengthOf, truthy?, truthy, JsNum.ofNat]

theorem predict_falls_back (rt : Runtime) (pg : Page) (fetch : Except JsError Response)
    (ht : trim pg.newsText ≠ "") (h : PredictRaises rt fetch) :
    ∃ pg', predict rt fetch pg = .ok pg' ∧
      pg'.resultsContainer = [messageNode "empty" predictFallback] := by
  rcases h with ⟨e, rfl⟩ | ⟨res, e, rfl, hok, hx⟩ | ⟨res, e, rfl, hok, hx⟩ |
    ⟨res, data, e, rfl, hok, hj, hx⟩
  · exact ⟨_, by simp [predict, ht, showEmpty_eq]; rfl, rfl⟩
  · exact ⟨_, by simp [predict, ht, showEmpty_eq, hok, hx]; rfl, rfl⟩
  · exact ⟨_, by simp [predict, ht, showEmpty_eq, hok, hx]; rfl, rfl⟩
  · exact ⟨_, by simp [predict, ht, showEmpty_eq, hok, hj, hx]; rfl, rfl⟩

theorem critical_falls_back (rt : Runtime) (pg : Page) (fetch : Except JsError Response)
    (h : CriticalRaises rt fetch) :
    ∃ pg', loadCriticalCases rt fetch pg = .ok pg' ∧
      pg'.criticalContainer = [messageNode "small-muted" criticalFallback] := by
  rcases h with ⟨e, rfl⟩ | ⟨res, e, rfl, hok, hx⟩ | ⟨res, data, xs, c, e, rfl, hok, hj, hc, hm, hx⟩
  · exact ⟨_, by simp [loadCriticalCases, el_message]; rfl, rfl⟩
  · exact ⟨_, by simp [loadCriticalCases, el_message, hok, hx]; rfl, rfl⟩
  · have hne : xs ≠ [] := by
      rintro rfl
      simp at hm
    obtain ⟨e', he'⟩ := forEachAppend_error
      (fun c => do pure (some (← buildCriticalCard rt c))) (xs.take 6) c hm e (by simp [hx])
      (.elem "div" [("class", "cards")] [])
    have hlen := length_truthy xs c hm
    refine ⟨{ pg with criticalContainer := [messageNode "small-muted" criticalFallback],
                      logged := pg.logged ++ [e'] }, ?_, rfl⟩
    simp only [pure_eq_ok] at he'
    simp [loadCriticalCases, el_message, hok, hj, hc, jsOrElse, truthy, hlen, he',
      criticalFallback]

theorem monthly_falls_back (rt : Runtime) (pg : Page) (fetch : Except JsError Response)
    (h : MonthlyRaises rt fetch) :
    ∃ pg', loadMonthlyReport rt fetch pg = .ok pg' ∧
      pg'.monthlyContainer = [messageNode "small-muted" monthlyFallback] := by
  rcases h with ⟨e, rfl⟩ | ⟨res, e, rfl, hok, hx⟩ | ⟨res, data, e, rfl, hok, hj, hn, hx⟩
  · exact ⟨_, by simp [loadMonthlyReport, el_message]; rfl, rfl⟩
  · exact ⟨_, by simp [loadMonthlyReport, el_message, hok, hx]; rfl, rfl⟩
  · refine ⟨{ pg with monthlyContainer := [messageNode "small-muted" monthlyFallback],
                      logged := pg.logged ++ [e] }, ?_, rfl⟩
    cases data with
    | obj kvs =>
      simp only [isNoDataMessage] at hn
      cases hm : lookup "message" kvs with
      | none => simp [loadMonthlyReport, el_message, hok, hj, hx, truthy, getProp, hm, monthlyFallback]
      | some v =>
        cases v with
        | str m =>
          simp only [hm] at hn
          have hi : includes (toLowerCase m) "no" = false := by
            cases hh : includes (toLowerCase m) "no" with
            | false => rfl
            | true => simp [hh] at hn
          simp [loadMonthlyReport, el_message, hok, hj, hx, truthy, getProp, hm, monthlyFallback, hi]
        | _ => simp [loadMonthlyReport, el_message, hok, hj, hx, truthy, getProp, hm, monthlyFallback]
    | null => simp [loadMonthlyReport, el_message, hok, hj, hx, truthy, monthlyFallback]
    | _ =>
      simp [loadMonthlyReport, el_message, hok, hj, hx, truthy, getProp, monthlyFallback]

theorem tryCatch_total {α : Type} (x : Except JsError α) (h : JsError → Except JsError α)
    (hh : ∀ e, ∃ a, h e = .ok a) : ∃ a, Except.tryCatch x h = .ok a := by
  cases x with
  | ok a => exact ⟨a, rfl⟩
  | error e => exact hh e

theorem predict_total (rt : Runtime) (pg : Page) (fetch : Except JsError Response) :
    ∃ pg', predict rt fetch pg = .ok pg' := by
  by_cases ht : trim pg.newsText = ""
  · exact ⟨_, by simp [predict, ht]; rfl⟩
  · simp only [predict, ht, if_false, showEmpty_eq, bind_ok_eq]
    apply tryCatch_total
    intro e
    exact ⟨_, rfl⟩

theorem critical_total (rt : Runtime) (pg : Page) (fetch : Except JsError Response) :
    ∃ pg', loadCriticalCases rt fetch pg = .ok pg' := by
  simp only [loadCriticalCases, el_message, bind_ok_eq]
  apply tryCatch_total
  intro e
  exact ⟨_, rfl⟩

theorem monthly_total (rt : Runtime) (pg : Page) (fetch : Except JsError Response) :
    ∃ pg', loadMonthlyReport rt fetch pg = .ok pg' := by
  simp only [loadMonthlyReport, el_message, bind_ok_eq]
  apply tryCatch_total
  intro e
  exact ⟨_, rfl⟩

@[simp] theorem kvLine_eq (label value : String) : kvLine label value = .ok (lineNode label value) := rfl

theorem forEachAppend_elem {α : Type} (f : α → Except JsError (Option Node)) (t : String)
    (a : List (String × String)) :
    ∀ (xs : List α) (cs : List Node) (m : Node),
      forEachAppend f (.elem t a cs) xs = .ok m → m = .elem t a (cs ++ appended f xs) := by
  intro xs
  induction xs with
  | nil =>
    intro cs m h
    simp only [forEachAppend, Except.ok.injEq] at h
    simp [appended, ← h]
  | cons x xs ih =>
    intro cs m h
    cases hx : f x with
    | error e => simp [forEachAppend, hx] at h
    | ok o =>
      cases o with
      | none =>
        simp only [forEachAppend, hx] at h
        simpa [appended, hx] using ih cs m h
      | some c =>
        simp only [forEachAppend, hx, Node.appendChild] at h
        simpa [appended, hx] using ih _ m h

theorem forEachAppend_all_ok {α : Type} (f : α → Except JsError (Option Node)) :
    ∀ (xs : List α) (n m : Node), forEachAppend f n xs = .ok m →
      ∀ x ∈ xs, ∃ o, f x = .ok o := by
  intro xs
  induction xs with
  | nil => intro n m _ x hx; cases hx
  | cons y ys ih =>
    intro n m h x hx
    cases hy : f y with
    | error e => simp [forEachAppend, hy] at h
    | ok o =>
      rcases List.mem_cons.1 hx with rfl | hx'
      · exact ⟨o, hy⟩
      · cases o with
        | none =>
          simp only [forEachAppend, hy] at h
          exact ih _ _ h x hx'
        | some c =>
          simp only [forEachAppend, hy] at h
          exact ih _ _ h x hx'

theorem appended_filter_map {α : Type} (f : α → Except JsError (Option Node)) (p : α → Bool)
    (g : α → Node) :
    ∀ xs : List α, (∀ x ∈ xs, f x = .ok (if p x then some (g x) else none)) →
      appended f xs = (xs.filter p).map g := by
  intro xs
  induction xs with
  | nil => intro _; rfl
  | cons x xs ih =>
    intro h
    have hx := h x (List.mem_cons_self _ _)
    have ih' := ih (fun y hy => h y (List.mem_cons_of_mem _ hy))
    cases hp : p x <;> simp [appended, hx, hp, ih', List.filter_cons]

theorem shown_of_ok {v : JSON} {s : String} (h : jsString v = .ok s) : shown v = s := by
  simp [shown, h]

theorem shownKey_of_ok {o : JSON} {k s : String} (h : keyString o k = .ok s) :
    shownKey o k = s := by
  simp [shownKey, h]

theorem jsOrElse_obj (ps : List (String × JSON)) (b c : Option JSON) (d : JSON) :
    jsOrElse (jsOr (jsOr (some (.obj ps)) b) c) d = .obj ps := by
  simp [jsOr, jsOrElse, truthy?, truthy]

theorem summary_box_shape (probabilities : Option JSON) (probs : JSON) (pv ct : String)
    (summary : Node)
    (hsum : (if (truthy probs && typeofObject probs) = true then do
        let o1 ← getProp probs "fake"
        let s1 ← (match o1 with
          | some f => do
            let t ← jsString f
            Except.ok ((((Node.elem "div" [("style", summaryStyle)] []).appendChild
              (lineNode "Prediction: " pv)).appendChild (lineNode "Confidence: " ct)).appendChild
                (lineNode "Fake: " t))
          | none => Except.ok (((Node.elem "div" [("style", summaryStyle)] []).appendChild
              (lineNode "Prediction: " pv)).appendChild (lineNode "Confidence: " ct)))
        let o2 ← getProp probs "real"
        let s2 ← (match o2 with
          | some r => do
            let t ← jsString r
            Except.ok (s1.appendChild (lineNode "Real: " t))
          | none => Except.ok s1)
        forEachAppend (fun k =>
          if k = "fake" ∨ k = "real" then Except.ok none
          else do
            let t ← keyString probs k
            Except.ok (some (lineNode (k ++ ": ") t))) s2 (objectKeys probs)
      else
        match probabilities with
        | some (.arr xs) => Except.ok ((((Node.elem "div" [("style", summaryStyle)] []).appendChild
              (lineNode "Prediction: " pv)).appendChild (lineNode "Confidence: " ct)).appendChild
                (lineNode "Probabilities: " (jsonStringify (.arr xs))))
        | _ => Except.ok (((Node.elem "div" [("style", summaryStyle)] []).appendChild
              (lineNode "Prediction: " pv)).appendChild (lineNode "Confidence: " ct))) =
      Except.ok summary) :
    ∃ extra, summary = .elem "div" [("style", summaryStyle)]
        (lineNode "Prediction: " pv :: lineNode "Confidence: " ct :: extra) ∧
      (∀ ps, probs = .obj ps → extra = probabilityLines ps) := by
  split at hsum
  · simp only [bind_eq_ok] at hsum
    obtain ⟨o1, ho1, s1, hs1, o2, ho2, s2, hs2, hfe⟩ := hsum
    have hs1' : ∃ e1, s1 = .elem "div" [("style", summaryStyle)]
        (lineNode "Prediction: " pv :: lineNode "Confidence: " ct :: e1) ∧
        e1 = optLine "Fake: " o1 := by
      cases o1 with
      | none =>
        simp only [Node.appendChild, Except.ok.injEq] at hs1
        exact ⟨[], by rw [← hs1]; rfl, rfl⟩
      | some f =>
        simp only [bind_eq_ok, Node.appendChild, Except.ok.injEq] at hs1
        obtain ⟨t, ht, hs1⟩ := hs1
        exact ⟨[lineNode "Fake: " t], by rw [← hs1]; rfl, by simp [optLine, shown_of_ok ht]⟩
    obtain ⟨e1, rfl, he1⟩ := hs1'
    have hs2' : ∃ e2, s2 = .elem "div" [("style", summaryStyle)]
        (lineNode "Prediction: " pv :: lineNode "Confidence: " ct :: (e1 ++ e2)) ∧
        e2 = optLine "Real: " o2 := by
      cases o2 with
      | none =>
        simp only [Except.ok.injEq] at hs2
        exact ⟨[], by rw [← hs2]; simp, rfl⟩
      | some r =>
        simp only [bind_eq_ok, Node.appendChild, Except.ok.injEq] at hs2
        obtain ⟨t, ht, hs2⟩ := hs2
        exact ⟨[lineNode "Real: " t], by rw [← hs2]; simp, by simp [optLine, shown_of_ok ht]⟩
    obtain ⟨e2, rfl, he2⟩ := hs2'
    have hall := forEachAppend_all_ok _ _ _ _ hfe
    have hshape := forEachAppend_elem _ _ _ _ _ _ hfe
    refine ⟨e1 ++ e2 ++ appended (fun k =>
          if k = "fake" ∨ k = "real" then Except.ok none
          else do
            let t ← keyString probs k
            Except.ok (some (lineNode (k ++ ": ") t))) (objectKeys probs),
      by rw [hshape]; simp, ?_⟩
    intro ps hps
    subst hps
    simp only [getProp, Except.ok.injEq] at ho1 ho2
    subst ho1 ho2
    have hkeys : appended (fun k =>
          if k = "fake" ∨ k = "real" then Except.ok none
          else do
            let t ← keyString (.obj ps) k
            Except.ok (some (lineNode (k ++ ": ") t))) (objectKeys (.obj ps)) =
        ((objectKeys (.obj ps)).filter (fun k => decide (k ≠ "fake" ∧ k ≠ "real"))).map
          (fun k => lineNode (k ++ ": ") (shownKey (.obj ps) k)) := by
      apply appended_filter_map
      intro k hk
      obtain ⟨o, ho⟩ := hall k hk
      by_cases hfr : k = "fake" ∨ k = "real"
      · have : ¬ (k ≠ "fake" ∧ k ≠ "real") := by tauto
        simp [hfr, this]
      · have hfr' : k ≠ "fake" ∧ k ≠ "real" := by tauto
        simp only [hfr, if_false, bind_eq_ok] at ho
        obtain ⟨t, ht, -⟩ := ho
        simp [hfr, hfr', ht, shownKey_of_ok ht]
    rw [hkeys, he1, he2]
    simp [probabilityLines, objectKeys]
  · rename_i hcond
    have hno : ∀ ps, probs = .obj ps → False := by
      intro ps hps
      subst hps
      simp [truthy, typeofObject] at hcond
    split at hsum
    · simp only [Node.appendChild, Except.ok.injEq] at hsum
      exact ⟨_, by rw [← hsum]; rfl, fun ps hps => (hno ps hps).elim⟩
    · simp only [Node.appendChild, Except.ok.injEq] at hsum
      exact ⟨[], by rw [← hsum]; rfl, fun ps hps => (hno ps hps).elim⟩

theorem getProp_obj (kvs : List (String × JSON)) (k : String) :
    getProp (.obj kvs) k = .ok (lookup k kvs) := rfl

theorem meta_step (o : Option JSON) (ms : List Node) (m : Node)
    (g : JSON → Except JsError (Option Node))
    (h : (match o with
          | some v => (g v).map (fun c =>
              match c with
              | some c => (Node.elem "div" [("style", metaStyle)] ms).appendChild c
              | none => Node.elem "div" [("style", metaStyle)] ms)
          | none => Except.ok (Node.elem "div" [("style", metaStyle)] ms)) = Except.ok m) :
    ∃ ms', m = .elem "div" [("style", metaStyle)] ms' ∧ (o = none → ms' = ms) := by
  cases o with
  | none =>
    simp only [Except.ok.injEq] at h
    exact ⟨ms, h.symm, fun _ => rfl⟩
  | some v =>
    cases hg : g v with
    | error e => simp [hg] at h
    | ok c =>
      cases c with
      | none =>
        simp only [hg, map_ok_eq, Except.ok.injEq] at h
        exact ⟨ms, h.symm, fun hn => by cases hn⟩
      | some c =>
        simp only [hg, map_ok_eq, Node.appendChild, Except.ok.injEq] at h
        exact ⟨ms ++ [c], h.symm, fun hn => by cases hn⟩

theorem prediction_card_parts (rt : Runtime) (kvs : List (String × JSON)) (card : Node)
    (h : buildPredictionCard rt (.obj kvs) = .ok card) :
    ∃ pre pv ct extra post,
      card = .elem "div" [("class", "result-card")]
        (pre ++ [.elem "div" [("style", summaryStyle)]
          (lineNode "Prediction: " pv :: lineNode "Confidence: " ct :: extra)] ++ post) ∧
      (∀ n ∈ pre, hasStyle summaryStyle n = false ∧ hasStyle metaStyle n = false) ∧
      (post = [] ∨ ∃ ms, post = [.elem "div" [("style", metaStyle)] ms]) ∧
      jsString (jsOrElse (jsOr (jsOr (lookup "prediction" kvs) (lookup "verdict" kvs))
        (lookup "label" kvs)) (.str "-")) = .ok pv ∧
      (∀ ps, lookup "probabilities" kvs = some (.obj ps) → extra = probabilityLines ps) ∧
      (lookup "inference_latency" kvs = none → lookup "server_latency" kvs = none →
        lookup "total_latency" kvs = none → lookup "timestamp" kvs = none → post = []) := by
  simp only [buildPredictionCard, getProp_obj, bind_ok_eq, el_class, el_text, el_style,
    pure_eq_ok, kvLine_eq, bind_eq_ok] at h
  obtain ⟨snippet, hsn, card1, hc1, pv, hpv, ct, hct, summary, hsum, meta1, hm1, meta2, hm2,
    meta3, hm3, meta4, hm4, hcard⟩ := h
  -- the children before the summary box
  have hpre : ∃ pre, card1 = .elem "div" [("class", "result-card")] pre ∧
      ∀ n ∈ pre, hasStyle summaryStyle n = false ∧ hasStyle metaStyle n = false := by
    split at hc1
    · simp only [bind_eq_ok, el_message, Except.ok.injEq, Node.appendChild] at hc1
      obtain ⟨t, -, c, hc, hc1⟩ := hc1
      subst hc
      refine ⟨_, hc1.symm, ?_⟩
      intro n hn
      simp only [List.nil_append, List.cons_append, List.mem_cons, List.mem_singleton,
        List.not_mem_nil, or_false] at hn
      rcases hn with rfl | rfl
      · exact ⟨by decide, by decide⟩
      · constructor <;> simp [hasStyle, Node.attrs, messageNode]
    · simp only [Except.ok.injEq, Node.appendChild] at hc1
      refine ⟨_, hc1.symm, ?_⟩
      intro n hn
      simp only [List.nil_append, List.mem_singleton] at hn
      subst hn
      exact ⟨by decide, by decide⟩
  obtain ⟨pre, rfl, hpre⟩ := hpre
  -- the summary box
  obtain ⟨extra, rfl, hextra⟩ := summary_box_shape _ _ _ _ _ hsum
  -- the metadata block
  obtain ⟨ms1, rfl, h1⟩ := meta_step (lookup "inference_latency" kvs) [] meta1
    (fun v => do
      let t ← fmtNum rt (some v) 4
      let c ← el "div" [] [.val (.str ("Inference latency: " ++ t ++ " s"))]
      pure (some c)) (by
        rw [← hm1]; cases lookup "inference_latency" kvs with
        | none => rfl
        | some v => simp only []; cases fmtNum rt (some v) 4 <;> rfl)
  obtain ⟨ms2, rfl, h2⟩ := meta_step (lookup "server_latency" kvs) ms1 meta2
    (fun v => do
      let t ← fmtNum rt (some v) 4
      let c ← el "div" [] [.val (.str ("Server latency: " ++ t ++ " s"))]
      pure (some c)) (by
        rw [← hm2]; cases lookup "server_latency" kvs with
        | none => rfl
        | some v => simp only []; cases fmtNum rt (some v) 4 <;> rfl)
  obtain ⟨ms3, rfl, h3⟩ := meta_step (lookup "total_latency" kvs) ms2 meta3
    (fun v => do
      let t ← fmtNum rt (some v) 4
      let c ← el "div" [] [.val (.str ("Total latency: " ++ t ++ " s"))]
      pure (some c)) (by
        rw [← hm3]; cases lookup "total_latency" kvs with
        | none => rfl
        | some v => simp only []; cases fmtNum rt (some v) 4 <;> rfl)
  obtain ⟨ms4, rfl, h4⟩ := meta_step (lookup "timestamp" kvs) ms3 meta4
    (fun v =>
      if truthy v then do
        let t ← fmtDate rt v
        let c ← el "div" [] [.val (.str ("Timestamp: " ++ t))]
        pure (some c)
      else pure none) (by
        rw [← hm4]; cases lookup "timestamp" kvs with
        | none => rfl
        | some v =>
          simp only []
          cases truthy v with
          | false => rfl
          | true => simp only [if_true]; cases fmtDate rt v <;> rfl)
  simp only [Node.childNodes, Node.appendChild, Except.ok.injEq] at hcard
  have hextra' : ∀ ps, lookup "probabilities" kvs = some (.obj ps) →
      extra = probabilityLines ps := by
    intro ps hps
    exact hextra ps (by rw [hps]; exact jsOrElse_obj ps _ _ _)
  by_cases hms : ms4 = []
  · subst hms
    simp only [List.length_nil, ne_eq, not_true_eq_false, if_false] at hcard
    refine ⟨pre, pv, ct, extra, [], ?_, hpre, Or.inl rfl, hpv, hextra', fun _ _ _ _ => rfl⟩
    rw [← hcard]; simp
  · have hlen : ms4.length ≠ 0 := by
      intro h0; exact hms (List.length_eq_zero.1 h0)
    simp only [ne_eq, hlen, not_false_eq_true, if_true] at hcard
    refine ⟨pre, pv, ct, extra, [.elem "div" [("style", metaStyle)] ms4], ?_, hpre,
      Or.inr ⟨ms4, rfl⟩, hpv, hextra', ?_⟩
    · rw [← hcard]
    · intro a b c d
      exact absurd ((h4 d).trans ((h3 c).trans ((h2 b).trans (h1 a)))) hms

theorem filter_none {α : Type} (p : α → Bool) (xs : List α) (h : ∀ x ∈ xs, p x = false) :
    xs.filter p = [] := by
  induction xs with
  | nil => rfl
  | cons x xs ih =>
    simp [List.filter_cons, h x (List.mem_cons_self _ _),
      ih (fun y hy => h y (List.mem_cons_of_mem _ hy))]

theorem styles_differ : summaryStyle ≠ metaStyle := by decide

theorem hasStyle_self (t st : String) (cs : List Node) :
    hasStyle st (.elem t [("style", st)] cs) = true := by
  simp [hasStyle, Node.attrs]

theorem hasStyle_other (t st st' : String) (cs : List Node) (h : st ≠ st') :
    hasStyle st (.elem t [("style", st')] cs) = false := by
  simp [hasStyle, Node.attrs, h]

theorem card_summaryLines (pre post lines : List Node)
    (hpre : ∀ n ∈ pre, hasStyle summaryStyle n = false ∧ hasStyle metaStyle n = false)
    (hpost : post = [] ∨ ∃ ms, post = [.elem "div" [("style", metaStyle)] ms]) :
    summaryLines (.elem "div" [("class", "result-card")]
      (pre ++ [.elem "div" [("style", summaryStyle)] lines] ++ post)) = lines ∧
    metaBlocks (.elem "div" [("class", "result-card")]
      (pre ++ [.elem "div" [("style", summaryStyle)] lines] ++ post)) = post := by
  have h1 : pre.filter (hasStyle summaryStyle) = [] := filter_none _ _ (fun n hn => (hpre n hn).1)
  have h2 : pre.filter (hasStyle metaStyle) = [] := filter_none _ _ (fun n hn => (hpre n hn).2)
  rcases hpost with rfl | ⟨ms, rfl⟩
  · simp [summaryLines, metaBlocks, Node.childNodes, List.filter_append, h1, h2,
      List.filter_cons, hasStyle_self, hasStyle_other _ _ _ _ styles_differ.symm]
  · simp [summaryLines, metaBlocks, Node.childNodes, List.filter_append, h1, h2,
      List.filter_cons, hasStyle_self, hasStyle_other _ _ _ _ styles_differ.symm,
      hasStyle_other _ _ _ _ styles_differ]

theorem verdict_firstTruthy (p v l : Option JSON) (s : String)
    (h : jsString (jsOrElse (jsOr (jsOr p v) l) (.str "-")) = .ok s) :
    s = verdictText (firstTruthy [p, v, l]) := by
  have key : ∀ o : Option JSON, verdictText (firstTruthy [o]) =
      shown (jsOrElse o (.str "-")) := by
    intro o
    cases o with
    | none => simp [firstTruthy, verdictText, jsOrElse, shown, jsString]
    | some x =>
      cases hx : truthy x <;> simp [firstTruthy, verdictText, jsOrElse, shown, jsString, hx]
  have hs := shown_of_ok h
  rw [← hs]
  cases p with
  | none =>
    cases v with
    | none => simpa [firstTruthy, jsOr, truthy?] using (key l).symm
    | some y =>
      cases hy : truthy y
      · simpa [firstTruthy, jsOr, truthy?, hy] using (key l).symm
      · simp [firstTruthy, jsOr, truthy?, hy, jsOrElse, verdictText]
  | some x =>
    cases hx : truthy x
    · cases v with
      | none => simpa [firstTruthy, jsOr, truthy?, hx] using (key l).symm
      | some y =>
        cases hy : truthy y
        · simpa [firstTruthy, jsOr, truthy?, hx, hy] using (key l).symm
        · simp [firstTruthy, jsOr, truthy?, hx, hy, jsOrElse, verdictText]
    · simp [firstTruthy, jsOr, truthy?, hx, jsOrElse, verdictText]

theorem grows_refl (Q : Node → Prop) (c : Node) : Grows Q c c :=
  fun cs h => ⟨[], by simpa using h, fun _ hn => by cases hn⟩

theorem grows_append (Q : Node → Prop) (c x : Node) (hx : Q x) : Grows Q c (c.appendChild x) := by
  intro cs h
  subst h
  exact ⟨[x], rfl, fun n hn => by simp at hn; subst hn; exact hx⟩

theorem grows_append2 (Q : Node → Prop) (c x y : Node) (hx : Q x) (hy : Q y) :
    Grows Q c ((c.appendChild x).appendChild y) := by
  intro cs h
  subst h
  refine ⟨[x, y], by simp [Node.appendChild], fun n hn => ?_⟩
  simp at hn
  rcases hn with rfl | rfl
  · exact hx
  · exact hy

theorem grows_trans (Q : Node → Prop) (a b c : Node) (h1 : Grows Q a b) (h2 : Grows Q b c) :
    Grows Q a c := by
  intro cs h
  obtain ⟨e1, hb, q1⟩ := h1 cs h
  obtain ⟨e2, hc, q2⟩ := h2 _ hb
  refine ⟨e1 ++ e2, by simpa using hc, fun n hn => ?_⟩
  rcases List.mem_append.1 hn with h' | h'
  · exact q1 n h'
  · exact q2 n h'

theorem keyLines_shape (t : String) (a : List (String × String)) (cs : List Node) (v : JSON)
    (m : Node) (h : keyLines (.elem t a cs) v = .ok m) : ∃ ls, m = .elem t a (cs ++ ls) :=
  ⟨_, forEachAppend_elem _ _ _ _ _ _ h⟩

theorem textDiv_noHeader (hdr s : String) :
    hasHeader hdr (.elem "div" [] (if s = "" then [] else [.text s])) = false := by
  by_cases h : s = "" <;> simp [hasHeader, Node.childNodes, h]

theorem section_noHeader (hdr hdr' : String) (st : List (String × String)) (ls : List Node)
    (h : hdr' ≠ hdr) :
    hasHeader hdr (.elem "div" st (.elem "strong" [] [.text hdr'] :: ls)) = false := by
  simp [hasHeader, Node.childNodes, h]

theorem appended_mem {α : Type} (f : α → Except JsError (Option Node)) (xs : List α) (n : Node)
    (h : n ∈ appended f xs) : ∃ x, f x = .ok (some n) := by
  induction xs with
  | nil => cases h
  | cons x xs ih =>
    simp only [appended, List.mem_append] at h
    rcases h with h | h
    · cases hx : f x with
      | error e => simp [hx] at h
      | ok o =>
        cases o with
        | none => simp [hx] at h
        | some c =>
          simp [hx] at h
          exact ⟨x, by rw [hx, h]⟩
    · exact ih h

theorem appended_numbered (i : Nat) (ys : List JSON) :
    appended (fun (ia : Nat × JSON) => do
        let line ← el "div" [] [.val (.str (Nat.repr (ia.1 + 1) ++ ". " ++
          match ia.2 with
          | .str t => t
          | an => jsonStringify an))]
        Except.ok (some line)) (indexedFrom i ys) = numbered (i + 1) ys := by
  induction ys generalizing i with
  | nil => rfl
  | cons y ys ih =>
    simp only [indexedFrom, appended, numbered, ih]
    cases y <;> rfl

theorem section_step (Q : Node → Prop) (hdr : String) (o : Option JSON) (cond : JSON → Bool)
    (c c' : Node)
    (hQ : ∀ ls, Q (.elem "div" [("style", sectionStyle)] (.elem "strong" [] [.text hdr] :: ls)))
    (h : (match o with
          | some v =>
            if cond v = true then do
              let t ← keyLines (.elem "div" [("style", sectionStyle)]
                [.elem "strong" [] [.text hdr]]) v
              Except.ok (c.appendChild t)
            else Except.ok c
          | none => Except.ok c) = Except.ok c') :
    Grows Q c c' := by
  cases o with
  | none =>
    simp only [Except.ok.injEq] at h
    subst h
    exact grows_refl _ _
  | some v =>
    simp only [] at h
    split at h
    · simp only [bind_eq_ok, Except.ok.injEq] at h
      obtain ⟨t, ht, rfl⟩ := h
      obtain ⟨ls, rfl⟩ := keyLines_shape _ _ _ _ _ ht
      exact grows_append _ _ _ (hQ _)
    · simp only [Except.ok.injEq] at h
      subst h
      exact grows_refl _ _

theorem lines_noHeader (hdr t : String) (a : List (String × String)) (ls : List Node)
    (h : ∀ n ∈ ls, ∃ s, n = textLine s) : hasHeader hdr (.elem t a ls) = false := by
  cases ls with
  | nil => rfl
  | cons n rest =>
    obtain ⟨s, rfl⟩ := h n (List.mem_cons_self _ _)
    simp [hasHeader, Node.childNodes, textLine]

theorem monthly_card_sections (rt : Runtime) (kvs : List (String × JSON)) (card : Node)
    (h : buildMonthlyReportCard rt (.obj kvs) = .ok card) :
    ∃ before after, card = .elem "div" [("class", "result-card")] (before ++ after) ∧
      (∀ n ∈ before, hasHeader "Anomalies" n = false) ∧
      (∀ a, lookup "anomalies" kvs = some a → truthy a = true →
        ∃ rest, after = anomalySection (anomalyLines a) :: rest ∧
          ∀ n ∈ rest, hasHeader "Anomalies" n = false) ∧
      ((lookup "anomalies" kvs = none ∨ ∃ a, lookup "anomalies" kvs = some a ∧ truthy a = false) →
        ∀ n ∈ after, hasHeader "Anomalies" n = false) := by
  simp only [buildMonthlyReportCard, getProp_obj, bind_ok_eq, el_class, el_text, el_style,
    pure_eq_ok, kvLine_eq, bind_eq_ok] at h
  obtain ⟨c1, h1, c2, h2, c3, h3, c4, h4, c5, h5, avgBox, havg, c6, h6, c7, h7, c8, h8,
    c9, h9, c10, h10, hcard⟩ := h
  simp only [Except.ok.injEq] at hcard
  let Q : Node → Prop := fun n => hasHeader "Anomalies" n = false
  have g1 : Grows Q (.elem "div" [("class", "result-card")] []) c1 := by
    cases hl : lookup "timestamp" kvs with
    | none =>
      simp only [hl, Except.ok.injEq] at h1
      subst h1
      exact grows_refl _ _
    | some v =>
      simp only [hl] at h1
      split at h1
      · simp only [bind_eq_ok, Except.ok.injEq] at h1
        obtain ⟨t, -, rfl⟩ := h1
        exact grows_append _ _ _ (textDiv_noHeader _ _)
      · simp only [Except.ok.injEq] at h1
        subst h1
        exact grows_refl _ _
  have g2 : Grows Q c1 c2 := by
    cases hl : lookup "month" kvs with
    | none =>
      simp only [hl, Except.ok.injEq] at h2
      subst h2
      exact grows_refl _ _
    | some v =>
      simp only [hl] at h2
      split at h2
      · simp only [bind_eq_ok, Except.ok.injEq] at h2
        obtain ⟨s, -, m, -, rfl⟩ := h2
        exact grows_append _ _ _ (textDiv_noHeader _ _)
      · simp only [Except.ok.injEq] at h2
        subst h2
        exact grows_refl _ _
  have g3 : Grows Q c2 c3 := by
    cases hl : lookup "total_predictions" kvs with
    | none =>
      simp only [hl, Except.ok.injEq] at h3
      subst h3
      exact grows_refl _ _
    | some v =>
      simp only [hl, bind_eq_ok, Except.ok.injEq] at h3
      obtain ⟨t, -, rfl⟩ := h3
      exact grows_append _ _ _ (textDiv_noHeader _ _)
  have g4 : Grows Q c3 c4 :=
    section_step Q "Totals:" (lookup "totals" kvs) (fun v => truthy v && typeofObject v) c3 c4
      (fun ls => section_noHeader _ _ _ _ (by decide)) h4
  have g5 : Grows Q c4 c5 :=
    section_step Q "Fake / Real ratio" (lookup "fake_real_ratio" kvs) truthy c4 c5
      (fun ls => section_noHeader _ _ _ _ (by decide)) h5
  have g6 : Grows Q c5 c6 := by
    have hbox := forEachAppend_elem _ _ _ _ _ _ havg
    have hQbox : Q avgBox := by
      rw [hbox]
      apply lines_noHeader
      intro n hn
      simp only [List.nil_append] at hn
      obtain ⟨kl, hkl⟩ := appended_mem _ _ _ hn
      cases hl : lookup kl.1 kvs with
      | none => simp [hl] at hkl
      | some v =>
        simp only [hl, bind_eq_ok, el_str, Except.ok.injEq, Option.some.injEq] at hkl
        obtain ⟨t, -, line, hline, rfl⟩ := hkl
        exact ⟨_, hline.symm⟩
    split at h6
    · simp only [bind_eq_ok, el_style_str, Except.ok.injEq] at h6
      obtain ⟨hd, rfl, rfl⟩ := h6
      exact grows_append2 _ _ _ _ (by simp [Q, hasHeader, Node.childNodes]) hQbox
    · simp only [Except.ok.injEq] at h6
      subst h6
      exact grows_refl _ _
  have g7 : Grows Q c6 c7 :=
    section_step Q "Error analysis" (lookup "error_analysis" kvs) truthy c6 c7
      (fun ls => section_noHeader _ _ _ _ (by decide)) h7
  have g8 : Grows Q c7 c8 :=
    section_step Q "Server health" (lookup "server_health" kvs) truthy c7 c8
      (fun ls => section_noHeader _ _ _ _ (by decide)) h8
  have g10 : Grows Q c9 c10 := by
    split at h10
    · simp only [bind_eq_ok, Except.ok.injEq] at h10
      obtain ⟨ti, hti, rfl⟩ := h10
      have hshape := forEachAppend_elem _ _ _ _ _ _ hti
      rw [hshape]
      exact grows_append _ _ _ (section_noHeader _ _ _ _ (by decide))
    · simp only [Except.ok.injEq] at h10
      subst h10
      exact grows_refl _ _
  have g18 : Grows Q (.elem "div" [("class", "result-card")] []) c8 :=
    grows_trans _ _ _ _ g1 (grows_trans _ _ _ _ g2 (grows_trans _ _ _ _ g3
      (grows_trans _ _ _ _ g4 (grows_trans _ _ _ _ g5 (grows_trans _ _ _ _ g6
        (grows_trans _ _ _ _ g7 g8))))))
  obtain ⟨before, rfl, hbefore⟩ := g18 [] rfl
  simp only [List.nil_append] at *
  subst hcard
  cases hl : lookup "anomalies" kvs with
  | none =>
    simp only [hl, Except.ok.injEq] at h9
    subst h9
    obtain ⟨ex, rfl, hex⟩ := g10 _ rfl
    exact ⟨before, ex, rfl, hbefore, fun a ha => (by cases ha), fun _ => hex⟩
  | some v =>
    simp only [hl] at h9
    cases hv : truthy v with
    | false =>
      simp only [hv, Bool.false_eq_true, if_false, Except.ok.injEq] at h9
      subst h9
      obtain ⟨ex, rfl, hex⟩ := g10 _ rfl
      refine ⟨before, ex, rfl, hbefore, fun a ha hta => ?_, fun _ => hex⟩
      simp only [Option.some.injEq] at ha
      subst ha
      simp [hv] at hta
    | true =>
      simp only [hv, if_true, bind_eq_ok, Except.ok.injEq] at h9
      obtain ⟨sec, hsec, rfl⟩ := h9
      have hsec' : sec = anomalySection (anomalyLines v) := by
        cases v with
        | arr xs =>
          cases xs with
          | nil =>
            simp only [bind_eq_ok, el_str, Except.ok.injEq] at hsec
            obtain ⟨line, rfl, rfl⟩ := hsec
            rfl
          | cons x xs =>
            simp only [] at hsec
            have hshape := forEachAppend_elem _ _ _ _ _ _ hsec
            rw [hshape, indexed, appended_numbered]
            rfl
        | null => simp [truthy] at hv
        | bool b =>
          simp only [bind_eq_ok, el_str, Except.ok.injEq] at hsec
          obtain ⟨s, hs, line, rfl, rfl⟩ := hsec
          simp [anomalySection, anomalyLines, textLine, shown_of_ok hs, Node.appendChild]
        | num n =>
          simp only [bind_eq_ok, el_str, Except.ok.injEq] at hsec
          obtain ⟨s, hs, line, rfl, rfl⟩ := hsec
          simp [anomalySection, anomalyLines, textLine, shown_of_ok hs, Node.appendChild]
        | str t =>
          simp only [bind_eq_ok, el_str, Except.ok.injEq] at hsec
          obtain ⟨s, hs, line, rfl, rfl⟩ := hsec
          simp [anomalySection, anomalyLines, textLine, shown_of_ok hs, Node.appendChild]
        | obj ps =>
          simp only [bind_eq_ok, el_str, Except.ok.injEq] at hsec
          obtain ⟨s, hs, line, rfl, rfl⟩ := hsec
          simp [anomalySection, anomalyLines, textLine, shown_of_ok hs, Node.appendChild]
      subst hsec'
      obtain ⟨ex, rfl, hex⟩ := g10 _ rfl
      refine ⟨before, anomalySection (anomalyLines v) :: ex, by simp, hbefore,
        fun a ha _ => ?_, fun hno => ?_⟩
      · simp only [Option.some.injEq] at ha
        subst ha
        exact ⟨ex, rfl, hex⟩
      · rcases hno with hno | ⟨a, ha, hta⟩
        · cases hno
        · simp only [Option.some.injEq] at ha
          subst ha
          simp [hv] at hta

theorem numbered_length (s : Nat) (ys : List JSON) : (numbered s ys).length = ys.length := by
  induction ys generalizing s with
  | nil => rfl
  | cons y ys ih => simp [numbered, ih]

theorem numbered_getElem? (s : Nat) (ys : List JSON) (i : Nat) :
    (numbered s ys)[i]? =
      (ys[i]?).map (fun an => textLine (Nat.repr (s + i) ++ ". " ++ entryText an)) := by
  induction ys generalizing s i with
  | nil => simp [numbered]
  | cons y ys ih =>
    cases i with
    | zero => simp [numbered]
    | succ i =>
      simp only [numbered, List.getElem?_cons_succ, ih]
      have : s + 1 + i = s + (i + 1) := by omega
      rw [this]

theorem forEachAppend_total {α : Type} (f : α → Except JsError (Option Node)) (t : String)
    (a : List (String × String)) :
    ∀ (xs : List α) (cs : List Node), (∀ x ∈ xs, ∃ o, f x = .ok o) →
      forEachAppend f (.elem t a cs) xs = .ok (.elem t a (cs ++ appended f xs)) := by
  intro xs
  induction xs with
  | nil => intro cs _; simp [forEachAppend, appended]
  | cons x xs ih =>
    intro cs h
    obtain ⟨o, ho⟩ := h x (List.mem_cons_self _ _)
    have ih' := fun cs => ih cs (fun y hy => h y (List.mem_cons_of_mem _ hy))
    cases o with
    | none => simp [forEachAppend, appended, ho, ih']
    | some c => simp [forEachAppend, appended, ho, ih', Node.appendChild]

theorem appended_cards (rt : Runtime) (ys : List JSON)
    (h : ∀ c ∈ ys, ∃ card, buildCriticalCard rt c = .ok card) :
    List.Forall₂ (fun c card => buildCriticalCard rt c = .ok card) ys
      (appended (fun c => do pure (some (← buildCriticalCard rt c))) ys) := by
  induction ys with
  | nil => exact List.Forall₂.nil
  | cons y ys ih =>
    obtain ⟨card, hc⟩ := h y (List.mem_cons_self _ _)
    have ih' := ih (fun c hc' => h c (List.mem_cons_of_mem _ hc'))
    simp only [appended, hc, bind_ok_eq, pure_eq_ok, List.singleton_append]
    exact List.Forall₂.cons hc ih'

theorem toNat_ofNat_upper (n : Nat) (h1 : 65 ≤ n) (h2 : n ≤ 90) :
    (Char.ofNat (n + 32)).toNat = n + 32 := by
  interval_cases n <;> rfl

theorem toLower_eq_iff (c : Char) (l u : Char) (hl : l.toNat = u.toNat + 32)
    (hu : 65 ≤ u.toNat ∧ u.toNat ≤ 90) : Char.toLower c = l ↔ c = l ∨ c = u := by
  have hlow : ¬ (65 ≤ l.toNat ∧ l.toNat ≤ 90) := by omega
  constructor
  · intro h
    by_cases hc : 65 ≤ c.toNat ∧ c.toNat ≤ 90
    · right
      have h1 : Char.toLower c = Char.ofNat (c.toNat + 32) := by
        simp [Char.toLower, hc]
      have h2 := toNat_ofNat_upper c.toNat hc.1 hc.2
      rw [← h1, h, hl] at h2
      have h3 : c.toNat = u.toNat := by omega
      rw [← Char.ofNat_toNat c, h3, Char.ofNat_toNat]
    · left
      have h1 : Char.toLower c = c := by
        simp [Char.toLower, hc]
      rw [← h1, h]
  · rintro (rfl | rfl)
    · simp [Char.toLower, hlow]
    · have h1 : Char.toLower c = Char.ofNat (c.toNat + 32) := by
        simp [Char.toLower, hu]
      rw [h1, ← hl, Char.ofNat_toNat]

theorem occursIn_no_iff (l : List Char) :
    occursIn ['n', 'o'] l = true ↔ ∃ a b, l = a ++ 'n' :: 'o' :: b := by
  induction l with
  | nil => simp [occursIn, startsWith]
  | cons x t ih =>
    simp only [occursIn, Bool.or_eq_true, ih]
    constructor
    · rintro (h | ⟨a, b, rfl⟩)
      · cases t with
        | nil => simp [startsWith] at h
        | cons y t' =>
          simp only [startsWith, Bool.and_eq_true, beq_iff_eq] at h
          have hy : 'o' = y := by
            cases t' <;> simp [startsWith] at h <;> exact h.2
          exact ⟨[], t', by rw [← h.1, ← hy]; rfl⟩
      · exact ⟨x :: a, b, rfl⟩
    · rintro ⟨a, b, h⟩
      cases a with
      | nil =>
        left
        simp only [List.nil_append, List.cons.injEq] at h
        obtain ⟨rfl, rfl⟩ := h
        cases b <;> simp [startsWith]
      | cons a0 a' =>
        right
        simp only [List.cons_append, List.cons.injEq] at h
        exact ⟨a', b, h.2⟩

theorem includes_lower_no (m : String) :
    includes (toLowerCase m) "no" = true ↔ ContainsNoAnyCase m := by
  have hn : ∀ c, Char.toLower c = 'n' ↔ c = 'n' ∨ c = 'N' :=
    fun c => toLower_eq_iff c 'n' 'N' (by decide) (by decide)
  have ho : ∀ c, Char.toLower c = 'o' ↔ c = 'o' ∨ c = 'O' :=
    fun c => toLower_eq_iff c 'o' 'O' (by decide) (by decide)
  show occursIn ['n', 'o'] (m.data.map Char.toLower) = true ↔ _
  rw [occursIn_no_iff]
  constructor
  · rintro ⟨a, b, h⟩
    obtain ⟨a', r, hm, ha, hr⟩ := List.map_eq_append_iff.1 h
    obtain ⟨c, r1, rfl, hc, hr1⟩ := List.map_eq_cons_iff.1 hr
    obtain ⟨d, b', rfl, hd, -⟩ := List.map_eq_cons_iff.1 hr1
    exact ⟨a', b', c, d, hm, (hn c).1 hc, (ho d).1 hd⟩
  · rintro ⟨a, b, c, d, hm, hc, hd⟩
    refine ⟨a.map Char.toLower, b.map Char.toLower, ?_⟩
    rw [hm, List.map_append, List.map_cons, List.map_cons, (hn c).2 hc, (ho d).2 hd]

theorem monthly_card_not_message (rt : Runtime) (kvs : List (String × JSON)) (card : Node)
    (h : buildMonthlyReportCard rt (.obj kvs) = .ok card) (m : String) :
    card ≠ messageNode "small-muted" m := by
  obtain ⟨before, after, rfl, -⟩ := monthly_card_sections rt kvs card h
  simp [messageNode]

theorem isNoDataMessage_some (kvs : List (String × JSON)) (m : String)
    (h : isNoDataMessage (.obj kvs) = some m) :
    lookup "message" kvs = some (.str m) ∧ includes (toLowerCase m) "no" = true := by
  simp only [isNoDataMessage] at h
  cases hl : lookup "message" kvs with
  | none => simp [hl] at h
  | some v =>
    cases v with
    | str s =>
      simp only [hl] at h
      split at h
      · rename_i hi
        simp only [Option.some.injEq] at h
        subst h
        exact ⟨rfl, hi⟩
      · cases h
    | null => simp [hl] at h
    | bool b => simp [hl] at h
    | num n => simp [hl] at h
    | arr xs => simp [hl] at h
    | obj ps => simp [hl] at h

theorem isNoDataMessage_none (kvs : List (String × JSON))
    (h : isNoDataMessage (.obj kvs) = none) (m : String)
    (hm : lookup "message" kvs = some (.str m)) : includes (toLowerCase m) "no" = false := by
  simp only [isNoDataMessage, hm] at h
  cases hi : includes (toLowerCase m) "no" with
  | false => rfl
  | true => simp [hi] at h

theorem monthly_success (rt : Runtime) (pg : Page) (res : Response)
    (kvs : List (String × JSON)) (hok : res.ok = true) (hjson : res.json = .ok (.obj kvs)) :
    loadMonthlyReport rt (.ok res) pg =
      match isNoDataMessage (.obj kvs) with
      | some m => .ok { pg with monthlyContainer := [messageNode "small-muted" m] }
      | none =>
        match buildMonthlyReportCard rt (.obj kvs) with
        | .ok card => .ok { pg with monthlyContainer := [card] }
        | .error e => .ok { pg with monthlyContainer := [messageNode "small-muted" monthlyFallback],
                                    logged := pg.logged ++ [e] } := by
  cases hn : isNoDataMessage (.obj kvs) with
  | some m =>
    obtain ⟨hl, hi⟩ := isNoDataMessage_some kvs m hn
    have hne : m ≠ "" := by
      rintro rfl
      simp [includes, toLowerCase, occursIn, startsWith] at hi
    simp [loadMonthlyReport, el_message, hok, hjson, truthy, getProp_obj, hl, hi, hne]
  | none =>
    cases hl : lookup "message" kvs with
    | none =>
      cases hb : buildMonthlyReportCard rt (.obj kvs) <;>
        simp [loadMonthlyReport, el_message, hok, hjson, truthy, getProp_obj, hl, hb,
          monthlyFallback]
    | some v =>
      cases v with
      | str m =>
        have hi := isNoDataMessage_none kvs hn m hl
        cases hb : buildMonthlyReportCard rt (.obj kvs) <;>
          simp [loadMonthlyReport, el_message, hok, hjson, truthy, getProp_obj, hl, hb, hi,
            monthlyFallback]
      | null =>
        cases hb : buildMonthlyReportCard rt (.obj kvs) <;>
          simp [loadMonthlyReport, el_message, hok, hjson, truthy, getProp_obj, hl, hb,
            monthlyFallback]
      | bool b =>
        cases hb : buildMonthlyReportCard rt (.obj kvs) <;>
          simp [loadMonthlyReport, el_message, hok, hjson, truthy, getProp_obj, hl, hb,
            monthlyFallback]
      | num n =>
        cases hb : buildMonthlyReportCard rt (.obj kvs) <;>
          simp [loadMonthlyReport, el_message, hok, hjson, truthy, getProp_obj, hl, hb,
            monthlyFallback]
      | arr xs =>
        cases hb : buildMonthlyReportCard rt (.obj kvs) <;>
          simp [loadMonthlyReport, el_message, hok, hjson, truthy, getProp_obj, hl, hb,
            monthlyFallback]
      | obj ps =>
        cases hb : buildMonthlyReportCard rt (.obj kvs) <;>
          simp [loadMonthlyReport, el_message, hok, hjson, truthy, getProp_obj, hl, hb,
            monthlyFallback]

mutual
theorem jsString_ok : ∀ v : JSON, plain v = true → ∃ s, jsString v = .ok s
  | .null, _ => ⟨_, rfl⟩
  | .bool _, _ => ⟨_, rfl⟩
  | .num _, _ => ⟨_, rfl⟩
  | .str _, _ => ⟨_, rfl⟩
  | .arr xs, h => by
    obtain ⟨ss, hs⟩ := jsStringElems_ok xs (by simpa [plain] using h)
    exact ⟨",".intercalate ss, by simp [jsString, hs]⟩
  | .obj kvs, h => by
    simp only [plain, Bool.and_eq_true, Option.isNone_iff_eq_none] at h
    exact ⟨"[object Object]", by simp [jsString, h.1]⟩
theorem jsStringElems_ok : ∀ xs : List JSON, plainList xs = true →
    ∃ ss, jsStringElems xs = .ok ss
  | [], _ => ⟨_, rfl⟩
  | x :: rest, h => by
    simp only [plainList, Bool.and_eq_true] at h
    obtain ⟨ss, hs⟩ := jsStringElems_ok rest h.2
    obtain ⟨s, hx⟩ := jsString_ok x h.1
    cases x with
    | null => exact ⟨"" :: ss, by simp [jsStringElems, hs]⟩
    | bool b => exact ⟨s :: ss, by simp [jsStringElems, hs, hx]⟩
    | num n => exact ⟨s :: ss, by simp [jsStringElems, hs, hx]⟩
    | str t => exact ⟨s :: ss, by simp [jsStringElems, hs, hx]⟩
    | arr ys => exact ⟨s :: ss, by simp [jsStringElems, hs, hx]⟩
    | obj ps => exact ⟨s :: ss, by simp [jsStringElems, hs, hx]⟩
end

theorem plain_lookup (k : String) (v : JSON) :
    ∀ kvs : List (String × JSON), plainProps kvs = true → lookup k kvs = some v → plain v = true
  | [], _, h => by cases h
  | (k', w) :: rest, hp, h => by
    simp only [plainProps, Bool.and_eq_true] at hp
    simp only [lookup] at h
    split at h
    · simp only [Option.some.injEq] at h
      subst h
      exact hp.1
    · exact plain_lookup k v rest hp.2 h

theorem plain_field (kvs : List (String × JSON)) (k : String) (v : JSON)
    (hp : plain (.obj kvs) = true) (h : lookup k kvs = some v) : plain v = true := by
  simp only [plain, Bool.and_eq_true] at hp
  exact plain_lookup k v kvs hp.2 h

theorem plainList_mem (v : JSON) :
    ∀ xs : List JSON, plainList xs = true → v ∈ xs → plain v = true
  | [], _, h => by cases h
  | x :: rest, hp, h => by
    simp only [plainList, Bool.and_eq_true] at hp
    rcases List.mem_cons.1 h with rfl | h'
    · exact hp.1
    · exact plainList_mem v rest hp.2 h'

theorem plainList_take (n : Nat) :
    ∀ xs : List JSON, plainList xs = true → plainList (xs.take n) = true := by
  induction n with
  | zero => intro xs _; rfl
  | succ n ih =>
    intro xs hp
    cases xs with
    | nil => rfl
    | cons x rest =>
      simp only [plainList, Bool.and_eq_true] at hp
      simp [plainList, hp.1, ih rest hp.2]

theorem atKey_mem {α : Type} (xs : List α) (k : String) (v : α) (h : atKey xs k = some v) :
    v ∈ xs := by
  simp only [atKey] at h
  obtain ⟨i, -, hi⟩ := List.exists_of_findSome?_eq_some h
  split at hi
  · exact List.get?_mem hi
  · cases hi

theorem plain_getKey (o : JSON) (k : String) (v : JSON) (hp : plain o = true)
    (h : getKey o k = some v) : plain v = true := by
  cases o with
  | obj kvs => exact plain_field kvs k v hp h
  | arr xs => exact plainList_mem v xs (by simpa [plain] using hp) (atKey_mem xs k v h)
  | str s =>
    simp only [getKey, Option.map_eq_some'] at h
    obtain ⟨c, -, rfl⟩ := h
    rfl
  | null => cases h
  | bool b => cases h
  | num n => cases h

theorem keyString_ok (o : JSON) (k : String) (hp : plain o = true) :
    ∃ s, keyString o k = .ok s := by
  simp only [keyString]
  cases h : getKey o k with
  | none => exact ⟨_, rfl⟩
  | some v => exact jsString_ok v (plain_getKey o k v hp h)

theorem keyLines_ok (t : String) (a : List (String × String)) (cs : List Node) (o : JSON)
    (hp : plain o = true) : ∃ m, keyLines (.elem t a cs) o = .ok m := by
  refine ⟨_, forEachAppend_total _ t a (objectKeys o) cs ?_⟩
  intro k _
  obtain ⟨s, hs⟩ := keyString_ok o k hp
  exact ⟨some (.elem "div" [] [.text (k ++ ": " ++ s)]), by simp [hs]⟩

theorem toPrimitive_ok (v : JSON) (hp : plain v = true) : ∃ p, toPrimitive v = .ok p := by
  obtain ⟨s, hs⟩ := jsString_ok v hp
  cases v <;> first | exact ⟨_, rfl⟩ | exact ⟨.str s, by simp [toPrimitive, hs]⟩

theorem fmtNum_ok (rt : Runtime) (v : JSON) (d : Nat) (hp : plain v = true) :
    ∃ s, fmtNum rt (some v) d = .ok s := by
  obtain ⟨p, hpr⟩ := toPrimitive_ok v hp
  obtain ⟨s, hs⟩ := jsString_ok v hp
  cases v with
  | null => exact ⟨_, rfl⟩
  | bool b => cases hf : rt.toFixed p d <;> simp [fmtNum, hpr, hf, hs]
  | num n => cases hf : rt.toFixed p d <;> simp [fmtNum, hpr, hf, hs]
  | str t => cases hf : rt.toFixed p d <;> simp [fmtNum, hpr, hf, hs]
  | arr xs => cases hf : rt.toFixed p d <;> simp [fmtNum, hpr, hf, hs]
  | obj ps => cases hf : rt.toFixed p d <;> simp [fmtNum, hpr, hf, hs]

theorem fmtDate_ok (rt : Runtime) (v : JSON) (hp : plain v = true) :
    ∃ s, fmtDate rt v = .ok s := by
  obtain ⟨p, hpr⟩ := toPrimitive_ok v hp
  obtain ⟨s, hs⟩ := jsString_ok v hp
  cases hd : rt.dateLocale p <;> simp [fmtDate, hpr, hd, hs]

theorem sliceEllipsis_ok (t : JSON) (n : Nat) (hp : plain t = true)
    (ht : isArray t = true ∨ typeofString t = true) : ∃ s, sliceEllipsis t n = .ok s := by
  cases t with
  | str s => exact ⟨_, rfl⟩
  | arr xs =>
    obtain ⟨s, hs⟩ := jsString_ok (.arr (xs.take n))
      (by simpa [plain] using plainList_take n xs (by simpa [plain] using hp))
    exact ⟨s ++ (if xs.length > n then "…" else ""), by simp [sliceEllipsis, hs]⟩
  | null => simp [isArray, typeofString] at ht
  | bool b => simp [isArray, typeofString] at ht
  | num k => simp [isArray, typeofString] at ht
  | obj ps => simp [isArray, typeofString] at ht

theorem returns_ok {α : Type} (a : α) : Returns (Except.ok a : Except JsError α) := ⟨a, rfl⟩

theorem returns_bind {α β : Type} (x : Except JsError α) (f : α → Except JsError β)
    (hx : Returns x) (hf : ∀ a, x = .ok a → Returns (f a)) : Returns (x >>= f) := by
  obtain ⟨a, ha⟩ := hx
  obtain ⟨b, hb⟩ := hf a ha
  exact ⟨b, by rw [ha]; exact hb⟩

theorem returns_map {α β : Type} (x : Except JsError α) (f : α → β) (hx : Returns x) :
    Returns (x.map f) := by
  obtain ⟨a, ha⟩ := hx
  exact ⟨f a, by rw [ha]; rfl⟩

theorem returns_opt {α : Type} (o : Option JSON) (d : Except JsError α)
    (f : JSON → Except JsError α) (hd : Returns d) (hf : ∀ v, o = some v → Returns (f v)) :
    Returns (match o with
      | some v => f v
      | none => d) := by
  cases o with
  | none => exact hd
  | some v => exact hf v rfl

theorem returns_ite {α : Type} (c : Prop) [Decidable c] (x y : Except JsError α)
    (hx : c → Returns x) (hy : ¬ c → Returns y) : Returns (if c then x else y) := by
  by_cases h : c
  · simpa [h] using hx h
  · simpa [h] using hy h

theorem returns_forEach {α : Type} (f : α → Except JsError (Option Node)) (n : Node)
    (xs : List α) (hn : ∃ t a cs, n = .elem t a cs) (h : ∀ x ∈ xs, Returns (f x)) :
    Returns (forEachAppend f n xs) := by
  obtain ⟨t, a, cs, rfl⟩ := hn
  exact ⟨_, forEachAppend_total f t a xs cs h⟩

theorem appendChild_elem (n c : Node) (hn : ∃ t a cs, n = .elem t a cs) :
    ∃ t a cs, n.appendChild c = .elem t a cs := by
  obtain ⟨t, a, cs, rfl⟩ := hn
  exact ⟨t, a, cs ++ [c], rfl⟩

theorem textSnippet_returns (text : Option JSON) (n : Nat) (d : String)
    (hp : ∀ t, text = some t → plain t = true) (hs : sliceable text = true) :
    ∃ s, textSnippet text n d = .ok (.str s) := by
  cases text with
  | none => exact ⟨d, rfl⟩
  | some t =>
    have hpt := hp t rfl
    cases t with
    | str s =>
      by_cases h : truthy (.str s) = true
      · exact ⟨s.take n ++ (if s.length > n then "…" else ""),
          by simp [textSnippet, h, sliceEllipsis]⟩
      · exact ⟨d, by simp [textSnippet, h]⟩
    | arr xs =>
      obtain ⟨s, hsl⟩ := sliceEllipsis_ok (.arr xs) n hpt (Or.inl rfl)
      exact ⟨s, by simp [textSnippet, truthy, hsl]⟩
    | null => exact ⟨d, by simp [textSnippet, truthy]⟩
    | bool b =>
      simp only [sliceable, Bool.not_eq_true'] at hs
      exact ⟨d, by simp [textSnippet, hs]⟩
    | num k =>
      simp only [sliceable, Bool.not_eq_true'] at hs
      exact ⟨d, by simp [textSnippet, hs]⟩
    | obj ps => simp [sliceable, truthy] at hs

theorem appendChildren_strings (n : Node) (hn : ∃ t a cs, n = .elem t a cs) :
    ∀ xs : List JSON, xs.all (fun x =>
      match x with
      | .str _ => true
      | .null => true
      | _ => false) = true →
      Returns (appendChildren n (xs.map Child.val)) := by
  intro xs
  induction xs generalizing n with
  | nil => intro _; exact ⟨n, rfl⟩
  | cons x rest ih =>
    intro h
    simp only [List.all_cons, Bool.and_eq_true] at h
    cases x with
    | null => simpa [appendChildren] using ih n hn h.2
    | str s => simpa [appendChildren] using ih _ (appendChild_elem n _ hn) h.2
    | bool b => simp at h
    | num k => simp at h
    | arr ys => simp at h
    | obj ps => simp at h

theorem el_appendable (tag : String) (attrs : List (String × String)) (v : JSON)
    (hv : appendable v = true)
    (ha : ∃ t a cs, applyAttrs (.elem tag [] []) attrs = .elem t a cs) :
    Returns (el tag attrs (asChildren v)) := by
  cases v with
  | str s =>
    obtain ⟨t, a, cs, h⟩ := ha
    exact ⟨.elem t a (cs ++ [.text s]), by simp [el, asChildren, appendChildren, h, Node.appendChild]⟩
  | arr xs => exact appendChildren_strings _ ha xs hv
  | null => simp [appendable] at hv
  | bool b => simp [appendable] at hv
  | num k => simp [appendable] at hv
  | obj ps => simp [appendable] at hv

theorem title_text (kvs : List (String × JSON)) (hp : plain (.obj kvs) = true)
    (ht : titleOk kvs = true) :
    ∃ v, jsOrLazy (jsOr (lookup "title" kvs) (lookup "headline" kvs))
        (textSnippet (lookup "text" kvs) 120 "Case") = .ok v ∧ appendable v = true := by
  have htext : sliceable (lookup "text" kvs) = true →
      ∃ v, textSnippet (lookup "text" kvs) 120 "Case" = .ok v ∧ appendable v = true := by
    intro hs
    obtain ⟨s, h⟩ := textSnippet_returns (lookup "text" kvs) 120 "Case"
      (fun t h' => plain_field kvs _ t hp h') hs
    exact ⟨.str s, h, rfl⟩
  simp only [titleOk] at ht
  cases hf : jsOr (lookup "title" kvs) (lookup "headline" kvs) with
  | none =>
    simp only [hf] at ht
    simpa [jsOrLazy] using htext ht
  | some v =>
    simp only [hf] at ht
    by_cases hv : truthy v = true
    · simp only [hv, if_true] at ht
      exact ⟨v, by simp [jsOrLazy, hv], ht⟩
    · simp only [hv] at ht
      simpa [jsOrLazy, hv] using htext ht

theorem critical_returns (rt : Runtime) (kvs : List (String × JSON))
    (hp : plain (.obj kvs) = true) (ht : titleOk kvs = true) :
    Returns (buildCriticalCard rt (.obj kvs)) := by
  simp only [buildCriticalCard, getProp_obj, bind_ok_eq, el_class, pure_eq_ok, kvLine_eq]
  obtain ⟨tt, htt, happ⟩ := title_text kvs hp ht
  simp only [htt, bind_ok_eq]
  refine returns_bind _ _ (el_appendable _ _ tt happ ⟨"div", [("style", titleStyle)], [], rfl⟩)
    (fun titleNode _ => ?_)
  refine returns_bind _ _ ?_ (fun card _ => ?_)
  · cases h : lookup "prediction" kvs with
    | none => exact returns_ok _
    | some v =>
      obtain ⟨s, hs⟩ := jsString_ok v (plain_field kvs _ v hp h)
      simp only [hs]
      exact returns_ok _
  refine returns_bind _ _ ?_ (fun card _ => ?_)
  · cases h : lookup "confidence" kvs with
    | none => exact returns_ok _
    | some v =>
      obtain ⟨s, hs⟩ := jsString_ok v (plain_field kvs _ v hp h)
      simp only [hs]
      exact returns_ok _
  refine returns_bind _ _ ?_ (fun card _ => returns_ok _)
  cases h : lookup "timestamp" kvs with
  | none => exact returns_ok _
  | some v =>
    obtain ⟨s, hs⟩ := fmtDate_ok rt v (plain_field kvs _ v hp h)
    by_cases hv : truthy v = true
    · simp only [hv, if_true, hs]
      exact returns_ok _
    · simp only [hv]
      exact returns_ok _

theorem forEachAppend_returns {α : Type} (f : α → Except JsError (Option Node)) :
    ∀ (xs : List α) (n : Node), (∀ x ∈ xs, Returns (f x)) → Returns (forEachAppend f n xs) := by
  intro xs
  induction xs with
  | nil => intro n _; exact ⟨n, rfl⟩
  | cons x xs ih =>
    intro n h
    obtain ⟨o, ho⟩ := h x (List.mem_cons_self _ _)
    have ih' := fun n => ih n (fun y hy => h y (List.mem_cons_of_mem _ hy))
    cases o with
    | none => simpa [forEachAppend, ho] using ih' n
    | some c => simpa [forEachAppend, ho] using ih' (n.appendChild c)

theorem plain_jsOr (a b : Option JSON) (v : JSON) (ha : ∀ w, a = some w → plain w = true)
    (hb : ∀ w, b = some w → plain w = true) (h : jsOr a b = some v) : plain v = true := by
  simp only [jsOr] at h
  split at h
  · exact ha v h
  · exact hb v h

theorem plain_jsOrElse (a : Option JSON) (d : JSON) (ha : ∀ w, a = some w → plain w = true)
    (hd : plain d = true) : plain (jsOrElse a d) = true := by
  cases a with
  | none => exact hd
  | some v =>
    simp only [jsOrElse]
    split
    · exact ha v rfl
    · exact hd

theorem plain_three (kvs : List (String × JSON)) (hp : plain (.obj kvs) = true)
    (k1 k2 k3 : String) (d : JSON) (hd : plain d = true) :
    plain (jsOrElse (jsOr (jsOr (lookup k1 kvs) (lookup k2 kvs)) (lookup k3 kvs)) d) = true :=
  plain_jsOrElse _ _
    (fun w hw => plain_jsOr _ _ w
      (fun w' hw' => plain_jsOr _ _ w' (fun x hx => plain_field kvs _ x hp hx)
        (fun x hx => plain_field kvs _ x hp hx) hw')
      (fun x hx => plain_field kvs _ x hp hx) hw) hd

theorem snippet_value (kvs : List (String × JSON)) (hp : plain (.obj kvs) = true)
    (hs : snippetOk kvs = true) :
    ∃ v, jsOrLazy (jsOr (lookup "title" kvs) (lookup "headline" kvs))
        (textSnippet (lookup "text" kvs) 160 "") = .ok v ∧ plain v = true := by
  have htext : sliceable (lookup "text" kvs) = true →
      ∃ v, textSnippet (lookup "text" kvs) 160 "" = .ok v ∧ plain v = true := by
    intro hsl
    obtain ⟨s, h⟩ := textSnippet_returns (lookup "text" kvs) 160 ""
      (fun t h' => plain_field kvs _ t hp h') hsl
    exact ⟨.str s, h, rfl⟩
  simp only [snippetOk, Bool.or_eq_true] at hs
  cases hf : jsOr (lookup "title" kvs) (lookup "headline" kvs) with
  | none =>
    have hs2 : sliceable (lookup "text" kvs) = true := by simpa [hf, truthy?] using hs
    simpa [jsOrLazy] using htext hs2
  | some v =>
    have hpv : plain v = true := plain_jsOr _ _ v (fun x hx => plain_field kvs _ x hp hx)
      (fun x hx => plain_field kvs _ x hp hx) hf
    by_cases hv : truthy v = true
    · exact ⟨v, by simp [jsOrLazy, hv], hpv⟩
    · have hs2 : sliceable (lookup "text" kvs) = true := by simpa [hf, truthy?, hv] using hs
      simpa [jsOrLazy, hv] using htext hs2

theorem latency_step (rt : Runtime) (o : Option JSON) (label : String) (m : Node)
    (hp : ∀ v, o = some v → plain v = true) :
    Returns (match o with
      | some v => do
        let t ← fmtNum rt (some v) 4
        let c ← el "div" [] [.val (.str (label ++ t ++ " s"))]
        Except.ok (m.appendChild c)
      | none => Except.ok m) := by
  cases o with
  | none => exact returns_ok _
  | some v =>
    obtain ⟨s, hs⟩ := fmtNum_ok rt v 4 (hp v rfl)
    simp only [hs, bind_ok_eq, el_str]
    exact returns_ok _

theorem prediction_returns (rt : Runtime) (kvs : List (String × JSON))
    (hp : plain (.obj kvs) = true) (hs : snippetOk kvs = true) :
    Returns (buildPredictionCard rt (.obj kvs)) := by
  simp only [buildPredictionCard, getProp_obj, bind_ok_eq, el_class, el_text, el_style,
    pure_eq_ok, kvLine_eq]
  obtain ⟨sn, hsn, hpsn⟩ := snippet_value kvs hp hs
  simp only [hsn, bind_ok_eq]
  refine returns_bind _ _ ?_ (fun card _ => ?_)
  · obtain ⟨s, hs'⟩ := jsString_ok sn hpsn
    by_cases hv : truthy sn = true
    · simp only [hv, if_true, hs', bind_ok_eq, el_message]
      exact returns_ok _
    · simp only [hv]
      exact returns_ok _
  obtain ⟨pv, hpv⟩ := jsString_ok _ (plain_three kvs hp "prediction" "verdict" "label"
    (.str "-") rfl)
  simp only [hpv, bind_ok_eq]
  refine returns_bind _ _ ?_ (fun ct _ => ?_)
  · cases hc : lookup "confidence" kvs with
    | some c =>
      obtain ⟨s, hs'⟩ := jsString_ok c (plain_field kvs _ c hp hc)
      cases c <;> first | exact returns_ok _ | exact ⟨s, hs'⟩
    | none =>
      cases hc2 : lookup "confidence_score" kvs with
      | some c =>
        obtain ⟨s, hs'⟩ := jsString_ok c (plain_field kvs _ c hp hc2)
        cases c <;> first | exact returns_ok _ | exact ⟨s, hs'⟩
      | none => exact returns_ok _
  refine returns_bind _ _ ?_ (fun summary _ => ?_)
  · have hprobs := plain_three kvs hp "probabilities" "proba" "probs" .null rfl
    generalize jsOrElse (jsOr (jsOr (lookup "probabilities" kvs) (lookup "proba" kvs))
      (lookup "probs" kvs)) .null = probs at hprobs
    apply returns_ite
    · intro hcond
      have hnn : ∀ k, ∃ o, getProp probs k = .ok o ∧ ∀ v, o = some v → plain v = true := by
        intro k
        cases probs with
        | null => simp [truthy] at hcond
        | obj ps => exact ⟨_, rfl, fun v hv => plain_field ps k v hprobs hv⟩
        | bool b => exact ⟨none, rfl, fun v hv => by cases hv⟩
        | num n => exact ⟨none, rfl, fun v hv => by cases hv⟩
        | str s => exact ⟨none, rfl, fun v hv => by cases hv⟩
        | arr xs => exact ⟨none, rfl, fun v hv => by cases hv⟩
      obtain ⟨o1, ho1, hp1⟩ := hnn "fake"
      obtain ⟨o2, ho2, hp2⟩ := hnn "real"
      simp only [ho1, ho2, bind_ok_eq]
      refine returns_bind _ _ ?_ (fun s1 _ => ?_)
      · cases o1 with
        | none => exact returns_ok _
        | some f =>
          obtain ⟨s, hs'⟩ := jsString_ok f (hp1 f rfl)
          simp only [hs', bind_ok_eq]
          exact returns_ok _
      refine returns_bind _ _ ?_ (fun s2 _ => ?_)
      · cases o2 with
        | none => exact returns_ok _
        | some r =>
          obtain ⟨s, hs'⟩ := jsString_ok r (hp2 r rfl)
          simp only [hs', bind_ok_eq]
          exact returns_ok _
      apply forEachAppend_returns
      intro k _
      by_cases hk : k = "fake" ∨ k = "real"
      · simp only [hk, if_true]
        exact returns_ok _
      · obtain ⟨s, hs'⟩ := keyString_ok probs k hprobs
        simp only [hk, if_false, hs', bind_ok_eq]
        exact returns_ok _
    · intro _
      split <;> exact returns_ok _
  refine returns_bind _ _ (latency_step rt _ "Inference latency: " _
    (fun v hv => plain_field kvs _ v hp hv)) (fun m1 _ => ?_)
  refine returns_bind _ _ (latency_step rt _ "Server latency: " _
    (fun v hv => plain_field kvs _ v hp hv)) (fun m2 _ => ?_)
  refine returns_bind _ _ (latency_step rt _ "Total latency: " _
    (fun v hv => plain_field kvs _ v hp hv)) (fun m3 _ => ?_)
  refine returns_bind _ _ ?_ (fun m4 _ => returns_ok _)
  cases h : lookup "timestamp" kvs with
  | none => exact returns_ok _
  | some v =>
    obtain ⟨s, hs'⟩ := fmtDate_ok rt v (plain_field kvs _ v hp h)
    by_cases hv : truthy v = true
    · simp only [hv, if_true, hs', bind_ok_eq, el_str]
      exact returns_ok _
    · simp only [hv]
      exact returns_ok _

theorem indexedFrom_mem {α : Type} (p : Nat × α) :
    ∀ (xs : List α) (i : Nat), p ∈ indexedFrom i xs → p.2 ∈ xs := by
  intro xs
  induction xs with
  | nil => intro i h; cases h
  | cons x xs ih =>
    intro i h
    simp only [indexedFrom, List.mem_cons] at h
    rcases h with rfl | h
    · exact List.mem_cons_self _ _
    · exact List.mem_cons_of_mem _ (ih _ h)

theorem section_returns (o : Option JSON) (cond : JSON → Bool) (hdr : String) (c : Node)
    (hp : ∀ v, o = some v → plain v = true) :
    Returns (match o with
      | some v =>
        if cond v = true then do
          let t ← keyLines (.elem "div" [("style", sectionStyle)]
            [.elem "strong" [] [.text hdr]]) v
          Except.ok (c.appendChild t)
        else Except.ok c
      | none => Except.ok c) := by
  cases o with
  | none => exact returns_ok _
  | some v =>
    obtain ⟨m, hm⟩ := keyLines_ok "div" [("style", sectionStyle)]
      [.elem "strong" [] [.text hdr]] v (hp v rfl)
    by_cases hc : cond v = true
    · simp only [hc, if_true, hm, bind_ok_eq]
      exact returns_ok _
    · simp only [hc]
      exact returns_ok _

theorem monthly_returns (rt : Runtime) (kvs : List (String × JSON))
    (hp : plain (.obj kvs) = true) : Returns (buildMonthlyReportCard rt (.obj kvs)) := by
  have hf : ∀ k v, lookup k kvs = some v → plain v = true :=
    fun k v h => plain_field kvs k v hp h
  simp only [buildMonthlyReportCard, getProp_obj, bind_ok_eq, el_class, el_text, el_style,
    pure_eq_ok, kvLine_eq]
  refine returns_bind _ _ ?_ (fun c1 _ => ?_)
  · cases h : lookup "timestamp" kvs with
    | none => exact returns_ok _
    | some v =>
      obtain ⟨s, hs⟩ := fmtDate_ok rt v (hf _ v h)
      by_cases hv : truthy v = true
      · simp only [hv, if_true, hs, bind_ok_eq]
        exact returns_ok _
      · simp only [hv]
        exact returns_ok _
  refine returns_bind _ _ ?_ (fun c2 _ => ?_)
  · cases h : lookup "month" kvs with
    | none => exact returns_ok _
    | some v =>
      obtain ⟨s, hs⟩ := jsString_ok v (hf _ v h)
      by_cases hv : truthy v = true
      · simp only [hv, if_true, hs, bind_ok_eq, escapeHtml, jsString, map_ok_eq]
        exact returns_ok _
      · simp only [hv]
        exact returns_ok _
  refine returns_bind _ _ ?_ (fun c3 _ => ?_)
  · cases h : lookup "total_predictions" kvs with
    | none => exact returns_ok _
    | some v =>
      obtain ⟨s, hs⟩ := jsString_ok v (hf _ v h)
      simp only [hs, bind_ok_eq]
      exact returns_ok _
  refine returns_bind _ _ (section_returns (lookup "totals" kvs)
    (fun v => truthy v && typeofObject v) "Totals:" c3 (hf _)) (fun c4 _ => ?_)
  refine returns_bind _ _ (section_returns (lookup "fake_real_ratio" kvs)
    truthy "Fake / Real ratio" c4 (hf _)) (fun c5 _ => ?_)
  refine returns_bind _ _ ?_ (fun avgBox _ => ?_)
  · apply forEachAppend_returns
    intro kl _
    cases h : lookup kl.1 kvs with
    | none => exact returns_ok _
    | some v =>
      obtain ⟨s, hs⟩ := fmtNum_ok rt v 4 (hf _ v h)
      simp only [hs, bind_ok_eq, el_str]
      exact returns_ok _
  refine returns_bind _ _ ?_ (fun c6 _ => ?_)
  · apply returns_ite
    · intro _
      simp only [el_style_str, bind_ok_eq]
      exact returns_ok _
    · intro _
      exact returns_ok _
  refine returns_bind _ _ (section_returns (lookup "error_analysis" kvs)
    truthy "Error analysis" c6 (hf _)) (fun c7 _ => ?_)
  refine returns_bind _ _ (section_returns (lookup "server_health" kvs)
    truthy "Server health" c7 (hf _)) (fun c8 _ => ?_)
  refine returns_bind _ _ ?_ (fun c9 _ => ?_)
  · cases h : lookup "anomalies" kvs with
    | none => exact returns_ok _
    | some v =>
      by_cases hv : truthy v = true
      · simp only [hv, if_true]
        refine returns_bind _ _ ?_ (fun a _ => returns_ok _)
        obtain ⟨s, hs⟩ := jsString_ok v (hf _ v h)
        cases v with
        | arr xs =>
          cases xs with
          | nil =>
            simp only [el_str, bind_ok_eq]
            exact returns_ok _
          | cons x rest =>
            simp only []
            apply forEachAppend_returns
            intro ia _
            simp only [el_str, bind_ok_eq]
            exact returns_ok _
        | null => simp [truthy] at hv
        | bool b =>
          simp only [hs, el_str, bind_ok_eq]
          exact returns_ok _
        | num n =>
          simp only [hs, el_str, bind_ok_eq]
          exact returns_ok _
        | str t =>
          simp only [hs, el_str, bind_ok_eq]
          exact returns_ok _
        | obj ps =>
          simp only [hs, el_str, bind_ok_eq]
          exact returns_ok _
      · simp only [hv]
        exact returns_ok _
  refine returns_bind _ _ ?_ (fun c10 _ => returns_ok _)
  cases h : lookup "top_issues" kvs with
  | none => exact returns_ok _
  | some v =>
    cases v with
    | arr xs =>
      simp only []
      refine returns_bind _ _ ?_ (fun ti _ => returns_ok _)
      apply forEachAppend_returns
      intro ii hii
      have hmem : ii.2 ∈ xs := List.mem_of_mem_take (indexedFrom_mem ii _ _ hii)
      obtain ⟨s, hs⟩ := jsString_ok ii.2
        (plainList_mem ii.2 xs (by simpa [plain] using hf _ _ h) hmem)
      simp only [hs, bind_ok_eq, el_str]
      exact returns_ok _
    | null => exact returns_ok _
    | bool b => exact returns_ok _
    | num n => exact returns_ok _
    | str t => exact returns_ok _
    | obj ps => exact returns_ok _

/-! ## Theorems -/

/-- C1 (as stated, refuted): for the answer 500 with body `boom`,
`loadCriticalCases` leaves the one message `Server error 500`, which does not
contain the body text. -/
theorem loadCriticalCases_error_omits_body :
    ∃ pg, loadCriticalCases plainRuntime (.ok ⟨500, .ok "boom", .ok .null⟩) startPage = .ok pg ∧
      pg.criticalContainer = [messageNode "small-muted" "Server error 500"] ∧
      ¬ ErrorShown pg.criticalContainer 500 "boom" := by
  refine ⟨_, rfl, rfl, ?_⟩
  show ¬ ErrorShown [messageNode "small-muted" "Server error 500"] 500 "boom"
  rintro ⟨cls, text, h, -, hb⟩
  have ht : text = "Server error 500" := by
    by_cases he : text = ""
    · subst he
      simp [messageNode] at h
    · simp [messageNode, he] at h
      exact h.2.symm
  subst ht
  revert hb
  decide

/-- C1 (amended): for a response with a status outside 200-299 and any body
text, `predict` (called with non-empty trimmed text) leaves exactly one message
whose text contains the status code and the body text, while
`loadCriticalCases` and `loadMonthlyReport` leave exactly the one message
`Server error <status>`, which contains the status code. -/
theorem http_error_message (rt : Runtime) (pg : Page) (res : Response) (body : String)
    (hok : res.ok = false) (hbody : res.text = .ok body) :
    (trim pg.newsText ≠ "" →
      ∃ pg', predict rt (.ok res) pg = .ok pg' ∧
        ErrorShown pg'.resultsContainer res.status body) ∧
    (∃ pg', loadCriticalCases rt (.ok res) pg = .ok pg' ∧
      pg'.criticalContainer = [messageNode "small-muted" ("Server error " ++ Nat.repr res.status)] ∧
      includes ("Server error " ++ Nat.repr res.status) (Nat.repr res.status) = true) ∧
    (∃ pg', loadMonthlyReport rt (.ok res) pg = .ok pg' ∧
      pg'.monthlyContainer = [messageNode "small-muted" ("Server error " ++ Nat.repr res.status)] ∧
      includes ("Server error " ++ Nat.repr res.status) (Nat.repr res.status) = true) := by
  refine ⟨?_, ?_, ?_⟩
  · intro ht
    refine ⟨_, by simp [predict, ht, showEmpty_eq, hok, hbody]; rfl, ?_⟩
    refine ⟨"empty", _, rfl, ?_, ?_⟩
    · have h := includes_mid "Server did not return a valid result: " (Nat.repr res.status)
        (" " ++ (if body = "" then "" else body))
      simpa [String.append_assoc] using h
    · by_cases hb : body = ""
      · subst hb
        cases hd : ("Server did not return a valid result: " ++ Nat.repr res.status ++ " " ++
          (if "" = "" then "" else "")).data <;> simp [includes, occursIn, startsWith, hd]
      · simp only [hb, if_false]
        exact includes_end _ _
  · exact ⟨_, by simp [loadCriticalCases, el_message, hok]; rfl, rfl, includes_end _ _⟩
  · exact ⟨_, by simp [loadMonthlyReport, el_message, hok]; rfl, rfl, includes_end _ _⟩

/-- Witness for C1: the answer 500 with body `boom`, with `some news` entered. -/
theorem http_error_message_witness :
    errorResponse.ok = false ∧ errorResponse.text = .ok "boom" ∧
    trim startPage.newsText ≠ "" ∧
    (∃ pg', predict plainRuntime (.ok errorResponse) startPage = .ok pg' ∧
      ErrorShown pg'.resultsContainer 500 "boom") ∧
    (∃ pg', loadCriticalCases plainRuntime (.ok errorResponse) startPage = .ok pg' ∧
      pg'.criticalContainer = [messageNode "small-muted" "Server error 500"]) ∧
    (∃ pg', loadMonthlyReport plainRuntime (.ok errorResponse) startPage = .ok pg' ∧
      pg'.monthlyContainer = [messageNode "small-muted" "Server error 500"]) := by
  have h := http_error_message plainRuntime startPage errorResponse "boom" rfl rfl
  refine ⟨rfl, rfl, by decide, h.1 (by decide), ?_, ?_⟩
  · obtain ⟨pg', h1, h2, -⟩ := h.2.1
    exact ⟨pg', h1, h2⟩
  · obtain ⟨pg', h1, h2, -⟩ := h.2.2
    exact ⟨pg', h1, h2⟩

/-- C2: each of the three handlers returns normally whatever the request does
(no exception escapes it), and whenever the request, the reading of the body,
the JSON decoding or the view builder raises, its container ends up holding
exactly the one message node with the fallback text of the action. -/
theorem handlers_recover (rt : Runtime) (pg : Page) (fetch : Except JsError Response) :
    (trim pg.newsText ≠ "" →
      (∃ pg', predict rt fetch pg = .ok pg') ∧
      (PredictRaises rt fetch → ∃ pg', predict rt fetch pg = .ok pg' ∧
        pg'.resultsContainer = [messageNode "empty"
          "Failed to contact server. Make sure backend is running."])) ∧
    ((∃ pg', loadCriticalCases rt fetch pg = .ok pg') ∧
      (CriticalRaises rt fetch → ∃ pg', loadCriticalCases rt fetch pg = .ok pg' ∧
        pg'.criticalContainer = [messageNode "small-muted" "Failed to load critical cases."])) ∧
    ((∃ pg', loadMonthlyReport rt fetch pg = .ok pg') ∧
      (MonthlyRaises rt fetch → ∃ pg', loadMonthlyReport rt fetch pg = .ok pg' ∧
        pg'.monthlyContainer = [messageNode "small-muted" "Failed to load monthly report."])) :=
  ⟨fun ht => ⟨predict_total rt pg fetch, predict_falls_back rt pg fetch ht⟩,
   ⟨critical_total rt pg fetch, critical_falls_back rt pg fetch⟩,
   ⟨monthly_total rt pg fetch, monthly_falls_back rt pg fetch⟩⟩

/-- Witness for C2: a rejected request with the text `some news` entered. -/
theorem handlers_recover_witness :
    trim startPage.newsText ≠ "" ∧
    PredictRaises plainRuntime (.error (.rejected "network")) ∧
    ∃ pg', predict plainRuntime (.error (.rejected "network")) startPage = .ok pg' ∧
      pg'.resultsContainer = [messageNode "empty"
        "Failed to contact server. Make sure backend is running."] :=
  ⟨by decide, Or.inl ⟨_, rfl⟩,
   ((handlers_recover plainRuntime startPage (.error (.rejected "network"))).1 (by decide)).2
     (Or.inl ⟨_, rfl⟩)⟩

/-- C3 (evaluation at the failing input): for `{probabilities: [0.9, 0.1]}`
the summary holds one line per index of the list and no `Probabilities: `
line. -/
theorem probability_list_rendered_per_index (rt : Runtime) :
    (buildPredictionCard rt (.obj [("probabilities",
      .arr [.num ⟨false, 9, -1⟩, .num ⟨false, 1, -1⟩])])).map summaryLines =
    .ok [lineNode "Prediction: " "-", lineNode "Confidence: " "-",
      lineNode "0: " "0.9", lineNode "1: " "0.1"] := by
  rfl

/-- C4 (as stated, refuted): for `{prediction: 0}` the first defined verdict
field is `0`, whose string is `0`, but the Prediction line shows `-`. -/
theorem verdict_zero_is_skipped :
    ¬ VerdictIsFirstDefined plainRuntime [("prediction", .num ⟨false, 0, 0⟩)] := by
  intro h
  have h' := h _ rfl
  have e1 : (summaryLines (.elem "div" [("class", "result-card")]
      [.elem "h4" [] [.text "Prediction"],
       .elem "div" [("style", summaryStyle)]
         [lineNode "Prediction: " "-", lineNode "Confidence: " "-"]])).head? =
      some (lineNode "Prediction: " "-") := by rfl
  have e2 : verdictText (firstDefined (verdictFields [("prediction", .num ⟨false, 0, 0⟩)])) = "0" := by
    rfl
  rw [e2] at h'
  have h'' := e1.symm.trans h'
  simp [lineNode] at h''

/-- C4 (amended): for every response object, the Prediction line of the card
built, the first line of the summary, shows the string of the first truthy
field among `prediction`, `verdict`, `label` in that order, and `-` when none
of them is truthy; and a card is built whenever no value of the object is an
object with an own `toString` and the snippet fields are usable. -/
theorem verdict_is_first_truthy (rt : Runtime) (kvs : List (String × JSON)) :
    (∀ card, buildPredictionCard rt (.obj kvs) = .ok card →
      (summaryLines card).head? =
        some (lineNode "Prediction: " (verdictText (firstTruthy (verdictFields kvs))))) ∧
    (plain (.obj kvs) = true → snippetOk kvs = true →
      ∃ card, buildPredictionCard rt (.obj kvs) = .ok card) := by
  refine ⟨?_, prediction_returns rt kvs⟩
  intro card h
  obtain ⟨pre, pv, ct, extra, post, rfl, hpre, hpost, hpv, -, -⟩ :=
    prediction_card_parts rt kvs card h
  rw [(card_summaryLines pre post _ hpre hpost).1, verdict_firstTruthy _ _ _ _ hpv]
  rfl

/-- Witness for C4: `{prediction: 0, verdict: "REAL"}` shows `REAL`. -/
theorem verdict_is_first_truthy_witness :
    ∃ card, buildPredictionCard plainRuntime
        (.obj [("prediction", .num ⟨false, 0, 0⟩), ("verdict", .str "REAL")]) = .ok card ∧
      (summaryLines card).head? = some (lineNode "Prediction: " "REAL") :=
  ⟨_, rfl, (verdict_is_first_truthy plainRuntime
    [("prediction", .num ⟨false, 0, 0⟩), ("verdict", .str "REAL")]).1 _ rfl⟩

/-- C5 (as stated, refuted): for the single case `{title: 5}` the builder
raises inside the handler, so no card is rendered. -/
theorem numeric_title_case_not_rendered :
    ¬ CriticalCasesClaim plainRuntime numericTitleResponse
      [.obj [("title", .num ⟨false, 5, 0⟩)]] startPage := by
  rintro ⟨pg', hpg, -, hcards⟩
  have hrun : loadCriticalCases plainRuntime (.ok numericTitleResponse) startPage =
      .ok { startPage with criticalContainer := [messageNode "small-muted" criticalFallback],
                           logged := [JsError.typeError] } := rfl
  rw [hrun] at hpg
  simp only [Except.ok.injEq] at hpg
  subst hpg
  obtain ⟨cards, hc, -, -⟩ := hcards (by simp)
  simp [messageNode] at hc

/-- C5 (amended): for every successful critical-cases response object whose
`cases` field is a list of `n` cases (an absent field counting as the empty
list): for `n = 0` the container holds the one message
`No critical cases found.` and no card; for `n > 0`, if `buildCriticalCard`
returns a card for each of the first `min n 6` cases, the container holds one
wrapper with exactly these `min n 6` cards in the order of the cases; and if
the builder raises for one of them, the container holds the fallback message. -/
theorem critical_cases_rendered (rt : Runtime) (pg : Page) (res : Response)
    (kvs : List (String × JSON)) (cases : List JSON)
    (hok : res.ok = true) (hjson : res.json = .ok (.obj kvs)) (hcases : casesOf kvs = some cases) :
    ((∀ c ∈ cases.take 6, ∃ card, buildCriticalCard rt c = .ok card) →
      ∃ pg', loadCriticalCases rt (.ok res) pg = .ok pg' ∧
        CriticalRendered rt cases pg'.criticalContainer) ∧
    ((∃ c ∈ cases.take 6, ∃ e, buildCriticalCard rt c = .error e) →
      ∃ pg', loadCriticalCases rt (.ok res) pg = .ok pg' ∧
        pg'.criticalContainer = [messageNode "small-muted" "Failed to load critical cases."]) := by
  constructor
  · intro hall
    cases hl : lookup "cases" kvs with
    | none =>
      simp only [casesOf, hl, Option.some.injEq] at hcases
      subst hcases
      refine ⟨{ pg with criticalContainer := [noCasesMessage] }, ?_, fun _ => rfl,
        fun h => absurd rfl h⟩
      simp [loadCriticalCases, el_message, hok, hjson, getProp_obj, hl, jsOrElse, lengthOf,
        truthy?, truthy, JsNum.ofNat, noCasesMessage]
    | some v =>
      cases v with
      | arr xs =>
        simp only [casesOf, hl, Option.some.injEq] at hcases
        subst hcases
        cases xs with
        | nil =>
          refine ⟨{ pg with criticalContainer := [noCasesMessage] }, ?_, fun _ => rfl,
            fun h => absurd rfl h⟩
          simp [loadCriticalCases, el_message, hok, hjson, getProp_obj, hl, jsOrElse, lengthOf,
            truthy?, truthy, JsNum.ofNat, noCasesMessage]
        | cons x xs =>
          have hfe := forEachAppend_total
            (fun c => do pure (some (← buildCriticalCard rt c))) "div" [("class", "cards")]
            ((x :: xs).take 6) [] (by
              intro c hc
              obtain ⟨card, hcard⟩ := hall c hc
              exact ⟨some card, by simp [hcard]⟩)
          simp only [pure_eq_ok, List.take_succ_cons, List.nil_append] at hfe
          refine ⟨{ pg with criticalContainer := [.elem "div" [("class", "cards")]
            ([] ++ appended (fun c => do pure (some (← buildCriticalCard rt c)))
              ((x :: xs).take 6))] }, ?_, fun h => (by cases h), fun _ => ⟨_, rfl, ?_, ?_⟩⟩
          · simp [loadCriticalCases, el_message, hok, hjson, getProp_obj, hl, jsOrElse, lengthOf,
              truthy?, truthy, JsNum.ofNat, hfe]
          · have := (appended_cards rt _ hall).length_eq
            simp only [List.nil_append]
            rw [← this, List.length_take, Nat.min_comm]
          · simpa using appended_cards rt _ hall
      | null => simp [casesOf, hl] at hcases
      | bool b => simp [casesOf, hl] at hcases
      | num n => simp [casesOf, hl] at hcases
      | str s => simp [casesOf, hl] at hcases
      | obj ps => simp [casesOf, hl] at hcases
  · rintro ⟨c, hc, e, he⟩
    have hxs : lookup "cases" kvs = some (.arr cases) := by
      cases hl : lookup "cases" kvs with
      | none =>
        simp only [casesOf, hl, Option.some.injEq] at hcases
        subst hcases
        simp at hc
      | some v =>
        cases v <;> simp [casesOf, hl] at hcases
        rw [hcases]
    exact critical_falls_back rt pg (.ok res)
      (Or.inr (Or.inr ⟨res, .obj kvs, cases, c, e, rfl, hok, hjson, by rw [getProp_obj, hxs],
        hc, he⟩))

/-- Witness for C5: eight empty case objects give exactly six cards. -/
theorem critical_cases_rendered_witness :
    ∃ pg', loadCriticalCases plainRuntime
        (.ok ⟨200, .ok "", .ok (.obj [("cases", .arr (List.replicate 8 (.obj [])))])⟩)
        startPage = .ok pg' ∧
      CriticalRendered plainRuntime (List.replicate 8 (.obj [])) pg'.criticalContainer :=
  (critical_cases_rendered plainRuntime startPage
    ⟨200, .ok "", .ok (.obj [("cases", .arr (List.replicate 8 (.obj [])))])⟩
    [("cases", .arr (List.replicate 8 (.obj [])))] (List.replicate 8 (.obj [])) rfl rfl rfl).1
    (by
      intro c hc
      have hc' : c = .obj [] := by
        have := List.mem_of_mem_take hc
        exact List.eq_of_mem_replicate this
      subst hc'
      exact ⟨_, rfl⟩)

/-- C6 (as stated, refuted): for a report whose `month` cannot be converted to
a string there is no message to show and the builder raises, so neither the
message nor a card is rendered. -/
theorem odd_month_report_not_rendered :
    ¬ MonthlyClaim plainRuntime ⟨200, .ok "", .ok (.obj oddMonthReport)⟩ oddMonthReport
      startPage := by
  rintro ⟨pg', -, h⟩
  have hb : buildMonthlyReportCard plainRuntime (.obj oddMonthReport) = .error .typeError := rfl
  have hn : isNoDataMessage (.obj oddMonthReport) = none := rfl
  rw [hn] at h
  obtain ⟨card, hc, -⟩ := h
  rw [hb] at hc
  cases hc

/-- C6 (amended): for every successful monthly-report response object the
handler returns; when `message` is a string containing `no` in some letter
case, the container holds only the one message node with that message
verbatim; in every other case, if `buildMonthlyReportCard` returns a card the
container holds exactly that card, which is not a message node, and if the
builder raises the container holds the fallback message.  The special case
applies exactly when `message` is a string with `n`/`N` directly followed by
`o`/`O`. -/
theorem monthly_report_rendered (rt : Runtime) (pg : Page) (res : Response)
    (kvs : List (String × JSON)) (hok : res.ok = true) (hjson : res.json = .ok (.obj kvs)) :
    ∃ pg', loadMonthlyReport rt (.ok res) pg = .ok pg' ∧
      (∀ m, lookup "message" kvs = some (.str m) → ContainsNoAnyCase m →
        pg'.monthlyContainer = [messageNode "small-muted" m]) ∧
      ((¬ ∃ m, lookup "message" kvs = some (.str m) ∧ ContainsNoAnyCase m) →
        (∀ card, buildMonthlyReportCard rt (.obj kvs) = .ok card →
          pg'.monthlyContainer = [card] ∧ ∀ m, card ≠ messageNode "small-muted" m) ∧
        (∀ e, buildMonthlyReportCard rt (.obj kvs) = .error e →
          pg'.monthlyContainer = [messageNode "small-muted" "Failed to load monthly report."])) := by
  have hrun := monthly_success rt pg res kvs hok hjson
  cases hn : isNoDataMessage (.obj kvs) with
  | some m =>
    obtain ⟨hl, hi⟩ := isNoDataMessage_some kvs m hn
    rw [hn] at hrun
    refine ⟨_, hrun, ?_, ?_⟩
    · intro m' hm' _
      rw [hl] at hm'
      simp only [Option.some.injEq, JSON.str.injEq] at hm'
      subst hm'
      rfl
    · intro hno
      exact absurd ⟨m, hl, (includes_lower_no m).1 hi⟩ hno
  | none =>
    rw [hn] at hrun
    cases hb : buildMonthlyReportCard rt (.obj kvs) with
    | ok card =>
      rw [hb] at hrun
      refine ⟨_, hrun, ?_, fun _ => ⟨?_, ?_⟩⟩
      · intro m hm hc
        have hi := isNoDataMessage_none kvs hn m hm
        rw [(includes_lower_no m).2 hc] at hi
        cases hi
      · intro card' hc'
        simp only [Except.ok.injEq] at hc'
        subst hc'
        exact ⟨rfl, monthly_card_not_message rt kvs card hb⟩
      · intro e he
        cases he
    | error e =>
      rw [hb] at hrun
      refine ⟨_, hrun, ?_, fun _ => ⟨?_, ?_⟩⟩
      · intro m hm hc
        have hi := isNoDataMessage_none kvs hn m hm
        rw [(includes_lower_no m).2 hc] at hi
        cases hi
      · intro card hc
        cases hc
      · intro e' _
        rfl

/-- Witness for C6: the response `{message: "No data available for this period"}`. -/
theorem monthly_report_rendered_witness :
    ∃ pg', loadMonthlyReport plainRuntime
        (.ok ⟨200, .ok "", .ok (.obj [("message", .str "No data available for this period")])⟩)
        startPage = .ok pg' ∧
      pg'.monthlyContainer = [messageNode "small-muted" "No data available for this period"] := by
  obtain ⟨pg', h1, h2, -⟩ := monthly_report_rendered plainRuntime startPage
    ⟨200, .ok "", .ok (.obj [("message", .str "No data available for this period")])⟩
    [("message", .str "No data available for this period")] rfl rfl
  exact ⟨pg', h1, h2 _ rfl ⟨[], " data available for this period".data, 'N', 'o', rfl,
    Or.inr rfl, Or.inl rfl⟩⟩

/-- C7 (as stated, refuted): for `{text: 5}` the number has no `slice`
method, so `buildPredictionCard` raises a `TypeError`. -/
theorem numeric_text_raises :
    ¬ BuildersNeverRaise plainRuntime [("text", .num ⟨false, 5, 0⟩)] := by
  rintro ⟨⟨card, h⟩, -⟩
  have hb : buildPredictionCard plainRuntime (.obj [("text", .num ⟨false, 5, 0⟩)]) =
      .error .typeError := rfl
  rw [hb] at h
  cases h

/-- C7 (amended): for every JSON object in which no value is an object with an
own property `toString`, with any subset of the fields absent and the present
fields of any JSON type: `buildMonthlyReportCard` returns a card;
`buildPredictionCard` returns a card provided `title` or `headline` is truthy
or `text` is absent, falsy, a string or a list; `buildCriticalCard` returns a
card provided the first truthy of `title`, `headline` is a string or a list of
strings and `null`s, and without one `text` is absent, falsy, a string or a
list. -/
theorem builders_return (rt : Runtime) (kvs : List (String × JSON))
    (hp : plain (.obj kvs) = true) :
    (snippetOk kvs = true → ∃ card, buildPredictionCard rt (.obj kvs) = .ok card) ∧
    (titleOk kvs = true → ∃ card, buildCriticalCard rt (.obj kvs) = .ok card) ∧
    (∃ card, buildMonthlyReportCard rt (.obj kvs) = .ok card) :=
  ⟨prediction_returns rt kvs hp, critical_returns rt kvs hp, monthly_returns rt kvs hp⟩

/-- Witness for C7: an object with a string title, a boolean confidence, a list
for `totals` and a numeric month. -/
theorem builders_return_witness :
    plain (.obj [("title", .str "Headline"), ("confidence", .bool true),
      ("totals", .arr [.null, .num ⟨false, 3, 0⟩]), ("month", .num ⟨false, 7, 0⟩)]) = true ∧
    (∃ card, buildPredictionCard plainRuntime (.obj [("title", .str "Headline"),
      ("confidence", .bool true), ("totals", .arr [.null, .num ⟨false, 3, 0⟩]),
      ("month", .num ⟨false, 7, 0⟩)]) = .ok card) ∧
    (∃ card, buildCriticalCard plainRuntime (.obj [("title", .str "Headline"),
      ("confidence", .bool true), ("totals", .arr [.null, .num ⟨false, 3, 0⟩]),
      ("month", .num ⟨false, 7, 0⟩)]) = .ok card) ∧
    (∃ card, buildMonthlyReportCard plainRuntime (.obj [("title", .str "Headline"),
      ("confidence", .bool true), ("totals", .arr [.null, .num ⟨false, 3, 0⟩]),
      ("month", .num ⟨false, 7, 0⟩)]) = .ok card) :=
  have h := builders_return plainRuntime [("title", .str "Headline"),
    ("confidence", .bool true), ("totals", .arr [.null, .num ⟨false, 3, 0⟩]),
    ("month", .num ⟨false, 7, 0⟩)] rfl
  ⟨rfl, h.1 rfl, h.2.1 rfl, h.2.2⟩

/-- C8: for every response object without `inference_latency`,
`server_latency`, `total_latency` and `timestamp` whose `probabilities` is an
object, the card built has no metadata block (the summary box is its last
child) and the summary lines are, in order: the Prediction line, the
Confidence line, the Fake line if `probabilities.fake` is defined, the Real
line if `probabilities.real` is defined, then one line per remaining key in
key order; such a card is built whenever no value of the object is an object
with an own `toString` and the snippet fields are usable; and the example
response gives `Prediction: FAKE`, `Confidence: 0.92`, `Fake: 0.92`,
`Real: 0.08` and no metadata block. -/
theorem summary_without_metadata :
    (∀ (rt : Runtime) (kvs ps : List (String × JSON)) (card : Node),
      lookup "inference_latency" kvs = none → lookup "server_latency" kvs = none →
      lookup "total_latency" kvs = none → lookup "timestamp" kvs = none →
      lookup "probabilities" kvs = some (.obj ps) →
      buildPredictionCard rt (.obj kvs) = .ok card →
      metaBlocks card = [] ∧
      ∃ pv ct,
        summaryLines card =
          lineNode "Prediction: " pv :: lineNode "Confidence: " ct :: probabilityLines ps ∧
        card.childNodes.getLast? = some (.elem "div" [("style", summaryStyle)]
          (lineNode "Prediction: " pv :: lineNode "Confidence: " ct :: probabilityLines ps))) ∧
    (∀ (rt : Runtime) (kvs : List (String × JSON)),
      plain (.obj kvs) = true → snippetOk kvs = true →
      ∃ card, buildPredictionCard rt (.obj kvs) = .ok card) ∧
    (∀ rt : Runtime, (buildPredictionCard rt (.obj [("prediction", .str "FAKE"),
        ("confidence", .num ⟨false, 92, -2⟩),
        ("probabilities", .obj [("fake", .num ⟨false, 92, -2⟩),
          ("real", .num ⟨false, 8, -2⟩)])])).map (fun c => (summaryLines c, metaBlocks c)) =
      .ok ([lineNode "Prediction: " "FAKE", lineNode "Confidence: " "0.92",
        lineNode "Fake: " "0.92", lineNode "Real: " "0.08"], [])) := by
  refine ⟨?_, prediction_returns, fun _ => rfl⟩
  intro rt kvs ps card h1 h2 h3 h4 hp h
  obtain ⟨pre, pv, ct, extra, post, rfl, hpre, hpost, -, hextra, hmeta⟩ :=
    prediction_card_parts rt kvs card h
  have hpost' : post = [] := hmeta h1 h2 h3 h4
  have hex := hextra ps hp
  subst hpost' hex
  refine ⟨(card_summaryLines pre [] _ hpre hpost).2, pv, ct,
    (card_summaryLines pre [] _ hpre hpost).1, ?_⟩
  simp [Node.childNodes]

/-- Witness for C8: a response with a probability object carrying a third
class and no latency or timestamp field. -/
theorem summary_without_metadata_witness :
    ∃ card, buildPredictionCard plainRuntime (.obj [("label", .str "REAL"),
        ("probabilities", .obj [("real", .num ⟨false, 7, -1⟩),
          ("satire", .num ⟨false, 3, -1⟩)])]) = .ok card ∧
      metaBlocks card = [] ∧
      ∃ pv ct, summaryLines card =
          lineNode "Prediction: " pv :: lineNode "Confidence: " ct ::
            [lineNode "Real: " "0.7", lineNode "satire: " "0.3"] ∧
        card.childNodes.getLast? = some (.elem "div" [("style", summaryStyle)]
          (lineNode "Prediction: " pv :: lineNode "Confidence: " ct ::
            [lineNode "Real: " "0.7", lineNode "satire: " "0.3"])) :=
  ⟨_, rfl, summary_without_metadata.1 plainRuntime
    [("label", .str "REAL"),
      ("probabilities", .obj [("real", .num ⟨false, 7, -1⟩), ("satire", .num ⟨false, 3, -1⟩)])]
    [("real", .num ⟨false, 7, -1⟩), ("satire", .num ⟨false, 3, -1⟩)] _ rfl rfl rfl rfl rfl rfl⟩

/-- C9 (as stated, refuted): for `{anomalies: 0}` the field is present and not
a list, yet the card built has no anomalies section at all. -/
theorem anomalies_zero_has_no_section :
    ¬ AnomaliesShownWhenPresent plainRuntime [("anomalies", .num ⟨false, 0, 0⟩)] := by
  intro h
  have h' := h (.num ⟨false, 0, 0⟩) (.elem "div" [("class", "result-card")] []) rfl rfl
  simp [anomalySections, Node.childNodes] at h'

/-- C9 (amended): for every report object whose `anomalies` field is present
and for which a card is built: when the value is truthy, the card has exactly
one anomalies section, holding after its header: for the empty list the one
line `No anomalies detected.`; for a non-empty list of `n` entries exactly
`min n 10` lines, the `i`-th (from 1) being `i. ` followed by the entry itself
when it is a string and by its JSON text otherwise; for a value that is not a
list the one line with its string; and when the value is falsy (`null`,
`false`, `0`, the empty string), the card has no anomalies section.  A card is
built whenever no value of the report is an object with an own `toString`. -/
theorem anomalies_section (rt : Runtime) (kvs : List (String × JSON)) (a : JSON)
    (ha : lookup "anomalies" kvs = some a) :
    (truthy a = true → ∀ card, buildMonthlyReportCard rt (.obj kvs) = .ok card →
      anomalySections card = [anomalySection (anomalyLines a)]) ∧
    (plain (.obj kvs) = true → ∃ card, buildMonthlyReportCard rt (.obj kvs) = .ok card) ∧
    (a = .arr [] → anomalyLines a = [textLine "No anomalies detected."]) ∧
    (∀ xs, a = .arr xs → xs ≠ [] →
      (anomalyLines a).length = min xs.length 10 ∧
      ∀ i, i < min xs.length 10 →
        (anomalyLines a)[i]? =
          (xs[i]?).map (fun an => textLine (Nat.repr (i + 1) ++ ". " ++ entryText an))) ∧
    (isArray a = false → anomalyLines a = [textLine (shown a)]) ∧
    (truthy a = false → ∀ card, buildMonthlyReportCard rt (.obj kvs) = .ok card →
      anomalySections card = []) := by
  refine ⟨?_, monthly_returns rt kvs, ?_, ?_, ?_, ?_⟩
  · intro ht card h
    obtain ⟨before, after, rfl, hb, hsome, -⟩ := monthly_card_sections rt kvs card h
    obtain ⟨rest, rfl, hrest⟩ := hsome a ha ht
    have e1 : before.filter (hasHeader "Anomalies") = [] := filter_none _ _ hb
    have e2 : rest.filter (hasHeader "Anomalies") = [] := filter_none _ _ hrest
    have e3 : hasHeader "Anomalies" (anomalySection (anomalyLines a)) = true := by
      simp [hasHeader, anomalySection, Node.childNodes]
    simp [anomalySections, Node.childNodes, List.filter_append, List.filter_cons, e1, e2, e3]
  · rintro rfl
    rfl
  · rintro xs rfl hne
    cases xs with
    | nil => exact absurd rfl hne
    | cons x xs =>
      have hl : anomalyLines (.arr (x :: xs)) = numbered 1 ((x :: xs).take 10) := rfl
      rw [hl]
      refine ⟨by rw [numbered_length, List.length_take, Nat.min_comm], ?_⟩
      intro i hi
      have hi10 : i < 10 := lt_of_lt_of_le hi (Nat.min_le_right _ _)
      rw [numbered_getElem?, List.getElem?_take_of_lt hi10, Nat.add_comm 1 i]
  · intro hna
    cases a <;> first | rfl | simp [isArray] at hna
  · intro hf card h
    obtain ⟨before, after, rfl, hb, -, hnone⟩ := monthly_card_sections rt kvs card h
    have hafter := hnone (Or.inr ⟨a, ha, hf⟩)
    have e1 : before.filter (hasHeader "Anomalies") = [] := filter_none _ _ hb
    have e2 : after.filter (hasHeader "Anomalies") = [] := filter_none _ _ hafter
    simp [anomalySections, Node.childNodes, List.filter_append, e1, e2]

/-- Witness for C9: a list holding a string and an object gives the two
numbered lines, and the value `false` gives no section. -/
theorem anomalies_section_witness :
    (∃ card, buildMonthlyReportCard plainRuntime
        (.obj [("anomalies", .arr [.str "spike", .obj [("k", .num ⟨false, 1, 0⟩)]])]) = .ok card ∧
      anomalySections card = [anomalySection
        [textLine "1. spike", textLine "2. \x7b\"k\":1\x7d"]]) ∧
    (∃ card, buildMonthlyReportCard plainRuntime
        (.obj [("anomalies", .bool false)]) = .ok card ∧
      anomalySections card = []) :=
  ⟨⟨_, rfl, (anomalies_section plainRuntime
      [("anomalies", .arr [.str "spike", .obj [("k", .num ⟨false, 1, 0⟩)]])]
      (.arr [.str "spike", .obj [("k", .num ⟨false, 1, 0⟩)]]) rfl).1 rfl _ rfl⟩,
   ⟨_, rfl, (anomalies_section plainRuntime [("anomalies", .bool false)]
      (.bool false) rfl).2.2.2.2.2 rfl _ rfl⟩⟩

/-- C10: `escapeHtml` returns `''` for `undefined` and for `null`; for every
string it returns the one-pass replacement of `&`, `<`, `>` by `&amp;`,
`&lt;`, `&gt;` with every other character unchanged, a result without `<` and
`>`; and `escapeHtml('<a&b>')` is `'&lt;a&amp;b&gt;'`. -/
theorem escapeHtml_one_pass :
    escapeHtml none = .ok "" ∧ escapeHtml (some .null) = .ok "" ∧
    (∀ s : String, escapeHtml (some (.str s)) = .ok (escapeOnePass s) ∧
      '<' ∉ (escapeOnePass s).data ∧ '>' ∉ (escapeOnePass s).data) ∧
    escapeHtml (some (.str "<a&b>")) = .ok "&lt;a&amp;b&gt;" := by
  refine ⟨rfl, rfl, ?_, rfl⟩
  intro s
  refine ⟨?_, ?_, ?_⟩
  · exact congrArg (fun l => Except.ok (String.mk l)) (escape_three_passes s.data)
  · intro h
    simp only [escapeOnePass, List.mem_flatten, List.mem_map] at h
    obtain ⟨l, ⟨c, _, rfl⟩, hx⟩ := h
    exact (escapeChar_no_angle c _ hx).1 rfl
  · intro h
    simp only [escapeOnePass, List.mem_flatten, List.mem_map] at h
    obtain ⟨l, ⟨c, _, rfl⟩, hx⟩ := h
    exact (escapeChar_no_angle c _ hx).2 rfl

end Script
